import Mathlib

/-!
Verification of the CoreSight log-analytics engine against its specification.

The Python sources are shallowly embedded: each Python function used by a
claim is translated into an executable Lean definition of the same name
(module paths become namespaces).  Impure inputs (the current time, the file
system) become explicit parameters; Python `None` / exceptions become
`Option` / `Except`.  Library calls (`datetime.strptime`, `json.loads`,
`xml.etree`, SQLite comparison operators) are modelled from their documented
behaviour, restricted to the dialects this code base actually exercises.
-/

namespace CoreSight

/-! ## Character and string helpers (ASCII models of the Python `str` ops used) -/

def isDigitC (c : Char) : Bool := '0' ≤ c && c ≤ '9'

/-- Python regex `\s` (ASCII): space, tab, newline, carriage return, vertical tab, form feed. -/
def isSpaceC (c : Char) : Bool :=
  c = ' ' || c = '\t' || c = '\n' || c = '\r' || c = '\x0b' || c = '\x0c'

/-- Python regex `\w` restricted to ASCII: letters, digits and underscore. -/
def isWordC (c : Char) : Bool :=
  isDigitC c || ('a' ≤ c && c ≤ 'z') || ('A' ≤ c && c ≤ 'Z') || c = '_'

def digitVal (c : Char) : Nat := c.toNat - '0'.toNat

/-- ASCII lower-casing of one character (model of `str.lower` / SQL `LOWER` on ASCII). -/
def lowerC (c : Char) : Char :=
  if 'A' ≤ c && c ≤ 'Z' then Char.ofNat (c.toNat + 32) else c

def lowerStr (s : String) : String := String.mk (s.toList.map lowerC)

/-- Does `s` begin with the pattern `p`? -/
def leadsWith : List Char → List Char → Bool
  | [], _ => true
  | _ :: _, [] => false
  | p :: ps, c :: cs => p = c && leadsWith ps cs

/-- Substring search: does `pat` occur inside `s`?  Model of Python `pat in s`. -/
def listContains (pat : List Char) : List Char → Bool
  | [] => pat.isEmpty
  | c :: cs => leadsWith pat (c :: cs) || listContains pat cs

/-- Python `sub in s`. -/
def pyIn (sub s : String) : Bool := listContains sub.toList s.toList

def dropLeadWS : List Char → List Char
  | [] => []
  | c :: cs => if isSpaceC c then dropLeadWS cs else c :: cs

/-- Python `str.strip()`: remove leading and trailing whitespace. -/
def pyStrip (s : String) : String :=
  String.mk ((dropLeadWS ((dropLeadWS s.toList).reverse)).reverse)

/-- Python `str.startswith`. -/
def pyStartsWith (s pre : String) : Bool := leadsWith pre.toList s.toList

/-- Python `str.endswith`. -/
def pyEndsWith (s suf : String) : Bool := leadsWith suf.toList.reverse s.toList.reverse

/-! ## Calendar arithmetic

`PyDateTime` models `datetime.datetime`: a proleptic-Gregorian date and time
with optional UTC offset (`tz`, in minutes) and microseconds. -/

structure PyDateTime where
  year : Nat
  month : Nat
  day : Nat
  hour : Nat
  minute : Nat
  second : Nat
  micro : Nat := 0
  tz : Option Int := none
deriving DecidableEq, Repr

def isLeap (y : Nat) : Bool := y % 4 = 0 && (y % 100 ≠ 0 || y % 400 = 0)

def daysInMonth (y m : Nat) : Nat :=
  if m = 2 then (if isLeap y then 29 else 28)
  else if m = 4 || m = 6 || m = 9 || m = 11 then 30
  else 31

/-- The range checks `datetime.datetime.__new__` performs (`ValueError` on failure). -/
def validDT (y m d h mi s : Nat) : Bool :=
  1 ≤ y && y ≤ 9999 && 1 ≤ m && m ≤ 12 && 1 ≤ d && d ≤ daysInMonth y m &&
  h ≤ 23 && mi ≤ 59 && s ≤ 59

def mkDateTime? (y m d h mi s : Nat) (micro : Nat) (tz : Option Int) : Option PyDateTime :=
  if validDT y m d h mi s then some ⟨y, m, d, h, mi, s, micro, tz⟩ else none

/-- Days since 0000-03-01 of a civil date (valid for `y ≥ 1`). -/
def daysFromCivil (y m d : Nat) : Nat :=
  let y' := if m ≤ 2 then y - 1 else y
  let era := y' / 400
  let yoe := y' % 400
  let mp := if 3 ≤ m then m - 3 else m + 9
  let doy := (153 * mp + 2) / 5 + d - 1
  let doe := yoe * 365 + yoe / 4 - yoe / 100 + doy
  era * 146097 + doe

/-- Inverse of `daysFromCivil`. -/
def civilFromDays (z : Nat) : Nat × Nat × Nat :=
  let era := z / 146097
  let doe := z % 146097
  let yoe := (doe - doe / 1460 + doe / 36524 - doe / 146096) / 365
  let y := yoe + era * 400
  let doy := doe - (365 * yoe + yoe / 4 - yoe / 100)
  let mp := (5 * doy + 2) / 153
  let d := doy + 1 - (153 * mp + 2) / 5
  let m := if mp < 10 then mp + 3 else mp - 9
  (if m ≤ 2 then y + 1 else y, m, d)

/-- Seconds since 0000-03-01T00:00:00 of a (naive reading of a) datetime. -/
def toSecs (dt : PyDateTime) : Nat :=
  daysFromCivil dt.year dt.month dt.day * 86400 +
    dt.hour * 3600 + dt.minute * 60 + dt.second

/-- Rebuild a datetime from a second count, keeping `micro`/`tz` of the argument:
model of `dt - timedelta(seconds = s)` for naive datetimes. -/
def subSeconds (dt : PyDateTime) (s : Nat) : PyDateTime :=
  let total := toSecs dt - s
  let ymd := civilFromDays (total / 86400)
  let rem := total % 86400
  { year := ymd.1, month := ymd.2.1, day := ymd.2.2,
    hour := rem / 3600, minute := rem % 3600 / 60, second := rem % 60,
    micro := dt.micro, tz := dt.tz }

def pad2 (n : Nat) : String := if n < 10 then "0" ++ toString n else toString n

def pad4 (n : Nat) : String :=
  if n < 10 then "000" ++ toString n
  else if n < 100 then "00" ++ toString n
  else if n < 1000 then "0" ++ toString n
  else toString n

def pad6 (n : Nat) : String :=
  let s := toString n
  String.mk (List.replicate (6 - s.length) '0') ++ s

def tzRender (off : Int) : String :=
  let a := off.natAbs
  (if off < 0 then "-" else "+") ++ pad2 (a / 60) ++ ":" ++ pad2 (a % 60)

/-- Model of `datetime.isoformat()`. -/
def pyIsoformat (dt : PyDateTime) : String :=
  pad4 dt.year ++ "-" ++ pad2 dt.month ++ "-" ++ pad2 dt.day ++ "T" ++
  pad2 dt.hour ++ ":" ++ pad2 dt.minute ++ ":" ++ pad2 dt.second ++
  (if dt.micro = 0 then "" else "." ++ pad6 dt.micro) ++
  (match dt.tz with | none => "" | some off => tzRender off)

/-! ## `datetime.strptime`

Modelled from CPython `_strptime`: the format is compiled to a regex that is
matched case-insensitively against a *prefix* of the string, and parsing
fails if characters remain afterwards ("unconverted data remains").  Each
directive below reproduces the regex fragment `_strptime` uses for it;
whitespace in a format matches one-or-more whitespace characters.  The final
`datetime(...)` construction re-checks calendar validity (`mkDateTime?`). -/

inductive Dir where
  | lit (c : Char)
  | ws
  | year4
  | monthNum
  | monthAbbr
  | dayNum
  | hourNum
  | minNum
  | secNum
  | frac
  | zone
deriving Repr

/-- Numeric directive: the regex alternation prefers a two-digit match
(when its value is admissible) and falls back to one digit. -/
def num2Pref (ok2 ok1 : Nat → Bool) : List Char → Option (Nat × List Char)
  | c1 :: c2 :: rest =>
    if isDigitC c1 && isDigitC c2 && ok2 (10 * digitVal c1 + digitVal c2) then
      some (10 * digitVal c1 + digitVal c2, rest)
    else if isDigitC c1 && ok1 (digitVal c1) then some (digitVal c1, c2 :: rest)
    else none
  | [c1] => if isDigitC c1 && ok1 (digitVal c1) then some (digitVal c1, []) else none
  | [] => none

def monthAbbrs : List String :=
  ["jan", "feb", "mar", "apr", "may", "jun", "jul", "aug", "sep", "oct", "nov", "dec"]

def parseMonthAbbr : List Char → Option (Nat × List Char)
  | c1 :: c2 :: c3 :: rest =>
    let i := monthAbbrs.indexOf (String.mk [lowerC c1, lowerC c2, lowerC c3])
    if i < 12 then some (i + 1, rest) else none
  | _ => none

def parse4Digits : List Char → Option (Nat × List Char)
  | c1 :: c2 :: c3 :: c4 :: rest =>
    if isDigitC c1 && isDigitC c2 && isDigitC c3 && isDigitC c4 then
      some (1000 * digitVal c1 + 100 * digitVal c2 + 10 * digitVal c3 + digitVal c4, rest)
    else none
  | _ => none

def parse2Digits : List Char → Option (Nat × List Char)
  | c1 :: c2 :: rest =>
    if isDigitC c1 && isDigitC c2 then some (10 * digitVal c1 + digitVal c2, rest) else none
  | _ => none

/-- Directive `%f`: one to six fractional digits (greedy), scaled to microseconds. -/
def parseFrac (cs : List Char) : Option (Nat × List Char) :=
  let digs := (cs.takeWhile isDigitC).take 6
  if digs.isEmpty then none
  else some (digs.foldl (fun a c => a * 10 + digitVal c) 0 * 10 ^ (6 - digs.length),
             cs.drop digs.length)

/-- Directive `%z`: `Z` (zero offset) or `[+-]HH[:]?MM`; the rarely used trailing-seconds
form is not modelled (never produced by this code base). The offset is minutes. -/
def parseZone : List Char → Option (Int × List Char)
  | 'Z' :: rest => some (0, rest)
  | sign :: h1 :: h2 :: rest =>
    if (sign = '+' || sign = '-') && isDigitC h1 && isDigitC h2 then
      let hh := 10 * digitVal h1 + digitVal h2
      let rest2 := match rest with | ':' :: r => r | r => r
      match rest2 with
      | m1 :: m2 :: rest3 =>
        if isDigitC m1 && digitVal m1 ≤ 5 && isDigitC m2 then
          let off : Int := hh * 60 + (10 * digitVal m1 + digitVal m2)
          some (if sign = '-' then -off else off, rest3)
        else none
      | _ => none
    else none
  | _ => none

structure StrpAcc where
  y : Nat := 1900
  m : Nat := 1
  d : Nat := 1
  h : Nat := 0
  mi : Nat := 0
  s : Nat := 0
  micro : Nat := 0
  tz : Option Int := none

def strpRun : List Dir → List Char → StrpAcc → Option StrpAcc
  | [], [], acc => some acc
  | [], _ :: _, _ => none
  | dir :: dirs, cs, acc =>
    match dir with
    | .lit c =>
      match cs with
      | c' :: rest => if lowerC c' = lowerC c then strpRun dirs rest acc else none
      | [] => none
    | .ws =>
      match cs with
      | c' :: rest => if isSpaceC c' then strpRun dirs (dropLeadWS rest) acc else none
      | [] => none
    | .year4 =>
      match parse4Digits cs with
      | some (v, rest) => strpRun dirs rest { acc with y := v }
      | none => none
    | .monthNum =>
      match num2Pref (fun v => 1 ≤ v && v ≤ 12) (fun v => 1 ≤ v) cs with
      | some (v, rest) => strpRun dirs rest { acc with m := v }
      | none => none
    | .monthAbbr =>
      match parseMonthAbbr cs with
      | some (v, rest) => strpRun dirs rest { acc with m := v }
      | none => none
    | .dayNum =>
      match num2Pref (fun v => 1 ≤ v && v ≤ 31) (fun v => 1 ≤ v) cs with
      | some (v, rest) => strpRun dirs rest { acc with d := v }
      | none => none
    | .hourNum =>
      match num2Pref (fun v => v ≤ 23) (fun _ => true) cs with
      | some (v, rest) => strpRun dirs rest { acc with h := v }
      | none => none
    | .minNum =>
      match num2Pref (fun v => v ≤ 59) (fun _ => true) cs with
      | some (v, rest) => strpRun dirs rest { acc with mi := v }
      | none => none
    | .secNum =>
      match num2Pref (fun v => v ≤ 59) (fun _ => true) cs with
      | some (v, rest) => strpRun dirs rest { acc with s := v }
      | none => none
    | .frac =>
      match parseFrac cs with
      | some (v, rest) => strpRun dirs rest { acc with micro := v }
      | none => none
    | .zone =>
      match parseZone cs with
      | some (v, rest) => strpRun dirs rest { acc with tz := some v }
      | none => none

def pyStrptime (fmt : List Dir) (s : String) : Option PyDateTime :=
  (strpRun fmt s.toList {}).bind fun a => mkDateTime? a.y a.m a.d a.h a.mi a.s a.micro a.tz

/-- Format `"%d/%b/%Y:%H:%M:%S %z"`. -/
def fmtAccessZ : List Dir :=
  [.dayNum, .lit '/', .monthAbbr, .lit '/', .year4, .lit ':', .hourNum, .lit ':',
   .minNum, .lit ':', .secNum, .ws, .zone]

/-- Format `"%d/%b/%Y:%H:%M:%S"`. -/
def fmtAccess : List Dir :=
  [.dayNum, .lit '/', .monthAbbr, .lit '/', .year4, .lit ':', .hourNum, .lit ':',
   .minNum, .lit ':', .secNum]

/-- Format `"%Y-%m-%d %H:%M:%S"`. -/
def fmtYmdHMSspace : List Dir :=
  [.year4, .lit '-', .monthNum, .lit '-', .dayNum, .ws, .hourNum, .lit ':',
   .minNum, .lit ':', .secNum]

/-- Format `"%Y-%m-%dT%H:%M:%S"`. -/
def fmtYmdHMST : List Dir :=
  [.year4, .lit '-', .monthNum, .lit '-', .dayNum, .lit 'T', .hourNum, .lit ':',
   .minNum, .lit ':', .secNum]

/-- Format `"%Y-%m-%dT%H:%M:%S.%f"`. -/
def fmtYmdHMSTf : List Dir := fmtYmdHMST ++ [.lit '.', .frac]

/-- Format `"%Y-%m-%dT%H:%M:%S%z"`. -/
def fmtYmdHMSTz : List Dir := fmtYmdHMST ++ [.zone]

/-- Format `"%b %d %H:%M:%S %Y"`. -/
def fmtBdHMSY : List Dir :=
  [.monthAbbr, .ws, .dayNum, .ws, .hourNum, .lit ':', .minNum, .lit ':', .secNum, .ws, .year4]

/-- Format `"%b %d %Y %H:%M:%S"`. -/
def fmtBdYHMS : List Dir :=
  [.monthAbbr, .ws, .dayNum, .ws, .year4, .ws, .hourNum, .lit ':', .minNum, .lit ':', .secNum]

/-! ## `datetime.fromisoformat`

Model of the subset this code base feeds it: `YYYY-MM-DD` optionally followed
by a one-character separator, `HH:MM:SS`, an optional fraction of one to six
digits, and an optional `[+-]HH:MM` offset (`Z` is replaced by `+00:00` by the
callers before the call). -/

def parseIsoOffset : List Char → Option (Option Int × List Char)
  | [] => some (none, [])
  | sign :: rest =>
    if sign = '+' || sign = '-' then
      match rest with
      | h1 :: h2 :: ':' :: m1 :: m2 :: rest2 =>
        if isDigitC h1 && isDigitC h2 && isDigitC m1 && isDigitC m2 then
          let off : Int := (10 * digitVal h1 + digitVal h2) * 60 + (10 * digitVal m1 + digitVal m2)
          some (some (if sign = '-' then -off else off), rest2)
        else none
      | _ => none
    else none

def parseIsoFrac : List Char → Option (Nat × List Char)
  | '.' :: rest =>
    let digs := (rest.takeWhile isDigitC).take 6
    if digs.isEmpty then none
    else some (digs.foldl (fun a c => a * 10 + digitVal c) 0 * 10 ^ (6 - digs.length),
               rest.drop digs.length)
  | cs => some (0, cs)

def pyFromIsoformat (s : String) : Option PyDateTime :=
  match parse4Digits s.toList with
  | none => none
  | some (y, rest) =>
    match rest with
    | '-' :: rest1 =>
      match parse2Digits rest1 with
      | none => none
      | some (m, rest2) =>
        match rest2 with
        | '-' :: rest3 =>
          match parse2Digits rest3 with
          | none => none
          | some (d, rest4) =>
            match rest4 with
            | [] => mkDateTime? y m d 0 0 0 0 none
            | _ :: rest5 =>
              match parse2Digits rest5 with
              | none => none
              | some (h, rest6) =>
                match rest6 with
                | ':' :: rest7 =>
                  match parse2Digits rest7 with
                  | none => none
                  | some (mi, rest8) =>
                    match rest8 with
                    | ':' :: rest9 =>
                      match parse2Digits rest9 with
                      | none => none
                      | some (sec, rest10) =>
                        match parseIsoFrac rest10 with
                        | none => none
                        | some (micro, rest11) =>
                          match parseIsoOffset rest11 with
                          | some (tz, []) => mkDateTime? y m d h mi sec micro tz
                          | _ => none
                    | _ => none
                | _ => none
        | _ => none
    | _ => none

/-! ## `strftime` fragments used by `_time_bucket` -/

/-- Model of `dt.strftime("%Y-%m-%d %H:%M:00")`. -/
def fmtBucketMinute (dt : PyDateTime) : String :=
  pad4 dt.year ++ "-" ++ pad2 dt.month ++ "-" ++ pad2 dt.day ++ " " ++
  pad2 dt.hour ++ ":" ++ pad2 dt.minute ++ ":00"

/-- Model of `dt.strftime("%Y-%m-%d %H:00:00")`. -/
def fmtBucketHour (dt : PyDateTime) : String :=
  pad4 dt.year ++ "-" ++ pad2 dt.month ++ "-" ++ pad2 dt.day ++ " " ++
  pad2 dt.hour ++ ":00:00"

/-- Model of `dt.strftime("%Y-%m-%d")`. -/
def fmtBucketDay (dt : PyDateTime) : String :=
  pad4 dt.year ++ "-" ++ pad2 dt.month ++ "-" ++ pad2 dt.day

/-! ## Python values

`SVal` models the scalar values SQLite rows hold (`None`, `TEXT`, `INTEGER`).
`JValue` models arbitrary `json.loads` results (floats keep their lexeme:
none of the verified code inspects float values). -/

inductive SVal where
  | vNone
  | vStr (s : String)
  | vInt (n : Int)
deriving DecidableEq, Repr

/-- Python truthiness of a scalar: `None`, `""` and `0` are falsy. -/
def SVal.falsy : SVal → Bool
  | .vNone => true
  | .vStr s => s = ""
  | .vInt n => n = 0

inductive JValue where
  | jNull
  | jBool (b : Bool)
  | jStr (s : String)
  | jInt (n : Int)
  | jFloat (lexeme : String)
  | jArr (xs : List JValue)
  | jObj (kvs : List (String × JValue))
deriving Repr, Inhabited

/-- Python truthiness of a JSON value.  A float literal equals `0.0` exactly
when every digit of its lexeme before the exponent marker is `0`. -/
def jTruthy : JValue → Bool
  | .jNull => false
  | .jBool b => b
  | .jStr s => s ≠ ""
  | .jInt n => n ≠ 0
  | .jFloat lx => !((lx.toList.takeWhile (fun c => c ≠ 'e' && c ≠ 'E')).all
      (fun c => !isDigitC c || c = '0'))
  | .jArr xs => !xs.isEmpty
  | .jObj kvs => !kvs.isEmpty

/-- Python `a or b` on dynamic values. -/
def pyOr (a b : JValue) : JValue := if jTruthy a then a else b

/-- Model of `dict.get k` with no default: `none` when the key is absent.  Later
duplicate keys shadow earlier ones, as in a Python dict built in order. -/
def jGet? (kvs : List (String × JValue)) (k : String) : Option JValue :=
  (kvs.reverse.find? (fun kv => kv.1 = k)).map (·.2)

/-- Model of `dict.get k` (absent key gives `None`). -/
def jGet (kvs : List (String × JValue)) (k : String) : JValue :=
  (jGet? kvs k).getD .jNull

/-! ## `json.loads` (default settings)

Recursive-descent parser for RFC-8259 JSON plus the `NaN`/`Infinity`
constants CPython accepts by default.  `\uXXXX` escapes are mapped through
`Char.ofNat` (surrogate pairing is not modelled; no verified input uses it). -/

def skipJWS : List Char → List Char
  | c :: cs => if c = ' ' || c = '\t' || c = '\n' || c = '\r' then skipJWS cs else c :: cs
  | [] => []

def hexVal? (c : Char) : Option Nat :=
  let n := c.toNat
  if 0x30 ≤ n && n ≤ 0x39 then some (n - 0x30)
  else if 0x61 ≤ n && n ≤ 0x66 then some (n - 0x57)
  else if 0x41 ≤ n && n ≤ 0x46 then some (n - 0x37)
  else none

def jsonStrBody : List Char → List Char → Option (String × List Char)
  | [], _ => none
  | '"' :: rest, acc => some (String.mk acc.reverse, rest)
  | '\\' :: e :: rest, acc =>
    if e = '"' then jsonStrBody rest ('"' :: acc)
    else if e = '\\' then jsonStrBody rest ('\\' :: acc)
    else if e = '/' then jsonStrBody rest ('/' :: acc)
    else if e = 'b' then jsonStrBody rest ('\x08' :: acc)
    else if e = 'f' then jsonStrBody rest ('\x0c' :: acc)
    else if e = 'n' then jsonStrBody rest ('\n' :: acc)
    else if e = 'r' then jsonStrBody rest ('\r' :: acc)
    else if e = 't' then jsonStrBody rest ('\t' :: acc)
    else if e = 'u' then
      match rest with
      | h1 :: h2 :: h3 :: h4 :: rest2 =>
        match hexVal? h1, hexVal? h2, hexVal? h3, hexVal? h4 with
        | some a, some b, some c, some d =>
          jsonStrBody rest2 (Char.ofNat (((a * 16 + b) * 16 + c) * 16 + d) :: acc)
        | _, _, _, _ => none
      | _ => none
    else none
  | c :: rest, acc => if c.toNat < 0x20 then none else jsonStrBody rest (c :: acc)

def jsonNumber (cs : List Char) : Option (JValue × List Char) :=
  let (sgn, cs1) := match cs with | '-' :: r => (true, r) | r => (false, r)
  let intDigs := cs1.takeWhile isDigitC
  if intDigs.isEmpty then none
  else if 1 < intDigs.length && intDigs.headD '0' = '0' then none
  else
    let cs2 := cs1.drop intDigs.length
    let (fracDigs, cs3) :=
      match cs2 with
      | '.' :: r =>
        let f := r.takeWhile isDigitC
        (f, r.drop f.length)
      | r => ([], r)
    if (match cs2 with | '.' :: _ => fracDigs.isEmpty | _ => false) then none
    else
      let (expChars, cs4) :=
        match cs3 with
        | e :: r =>
          if e = 'e' || e = 'E' then
            let (sc, r2) := match r with
              | s :: r' => if s = '+' || s = '-' then ([s], r') else ([], r)
              | [] => ([], r)
            let ds := r2.takeWhile isDigitC
            if ds.isEmpty then ([], cs3) else (e :: sc ++ ds, r2.drop ds.length)
          else ([], cs3)
        | [] => ([], cs3)
      if fracDigs.isEmpty && expChars.isEmpty then
        let v : Int := intDigs.foldl (fun a c => a * 10 + (digitVal c : Int)) 0
        some (.jInt (if sgn then -v else v), cs2)
      else
        let lexeme := (if sgn then ['-'] else []) ++ intDigs ++
          (if fracDigs.isEmpty then [] else '.' :: fracDigs) ++ expChars
        some (.jFloat (String.mk lexeme), cs4)

mutual

def jsonVal : Nat → List Char → Option (JValue × List Char)
  | 0, _ => none
  | fuel + 1, cs =>
    match cs with
    | '\x7b' :: rest =>
      let rest1 := skipJWS rest
      match rest1 with
      | '\x7d' :: rest2 => some (.jObj [], rest2)
      | _ => (jsonObjRest fuel rest1 []).map (fun p => (.jObj p.1, p.2))
    | '[' :: rest =>
      let rest1 := skipJWS rest
      match rest1 with
      | ']' :: rest2 => some (.jArr [], rest2)
      | _ => (jsonArrRest fuel rest1 []).map (fun p => (.jArr p.1, p.2))
    | '"' :: rest => (jsonStrBody rest []).map (fun p => (.jStr p.1, p.2))
    | _ =>
      if leadsWith "true".toList cs then some (.jBool true, cs.drop 4)
      else if leadsWith "false".toList cs then some (.jBool false, cs.drop 5)
      else if leadsWith "null".toList cs then some (.jNull, cs.drop 4)
      else if leadsWith "NaN".toList cs then some (.jFloat "NaN", cs.drop 3)
      else if leadsWith "Infinity".toList cs then some (.jFloat "Infinity", cs.drop 8)
      else if leadsWith "-Infinity".toList cs then some (.jFloat "-Infinity", cs.drop 9)
      else jsonNumber cs

def jsonObjRest : Nat → List Char → List (String × JValue) →
    Option (List (String × JValue) × List Char)
  | 0, _, _ => none
  | fuel + 1, cs, acc =>
    match cs with
    | '"' :: rest =>
      match jsonStrBody rest [] with
      | none => none
      | some (k, rest1) =>
        match skipJWS rest1 with
        | ':' :: rest2 =>
          match jsonVal fuel (skipJWS rest2) with
          | none => none
          | some (v, rest3) =>
            match skipJWS rest3 with
            | ',' :: rest4 => jsonObjRest fuel (skipJWS rest4) (acc ++ [(k, v)])
            | '\x7d' :: rest4 => some (acc ++ [(k, v)], rest4)
            | _ => none
        | _ => none
    | _ => none

def jsonArrRest : Nat → List Char → List JValue → Option (List JValue × List Char)
  | 0, _, _ => none
  | fuel + 1, cs, acc =>
    match jsonVal fuel cs with
    | none => none
    | some (v, rest) =>
      match skipJWS rest with
      | ',' :: rest1 => jsonArrRest fuel (skipJWS rest1) (acc ++ [v])
      | ']' :: rest1 => some (acc ++ [v], rest1)
      | _ => none

end

def jsonLoads (s : String) : Option JValue :=
  let cs := skipJWS s.toList
  match jsonVal (s.length + 1) cs with
  | some (v, rest) => if (skipJWS rest).isEmpty then some v else none
  | none => none

/-! ## `xml.etree.ElementTree.fromstring`

Simplified model: elements with attributes, leading text and child elements
(tail text, namespaces, comments, processing instructions and entity
references are not modelled — the verified properties only exercise the
success/failure split and `find`/`attrib`/`text` on plain documents). -/

inductive XElem where
  | mk (tag : String) (attrs : List (String × String)) (text : Option String)
       (children : List XElem)
deriving Repr, Inhabited

def XElem.tag : XElem → String | .mk t _ _ _ => t
def XElem.attrs : XElem → List (String × String) | .mk _ a _ _ => a
def XElem.text : XElem → Option String | .mk _ _ t _ => t
def XElem.children : XElem → List XElem | .mk _ _ _ c => c

/-- Model of `elem.find name`: first direct child with the given tag. -/
def xFind (e : XElem) (name : String) : Option XElem :=
  e.children.find? (fun c => c.tag = name)

/-- Model of `elem.attrib.get name`. -/
def xAttr? (e : XElem) (name : String) : Option String :=
  (e.attrs.find? (fun kv => kv.1 = name)).map (·.2)

def isXNameC (c : Char) : Bool :=
  isWordC c || c = '-' || c = ':' || c = '.'

def xmlQuoted : List Char → Option (String × List Char)
  | q :: rest =>
    if q = '"' || q = '\'' then
      let v := rest.takeWhile (fun c => c ≠ q)
      match rest.drop v.length with
      | _ :: rest2 => some (String.mk v, rest2)
      | [] => none
    else none
  | [] => none

def xmlAttrs : Nat → List Char → List (String × String) →
    Option (List (String × String) × List Char)
  | 0, _, _ => none
  | fuel + 1, cs, acc =>
    let cs1 := dropLeadWS cs
    let nm := cs1.takeWhile isXNameC
    if nm.isEmpty then some (acc, cs1)
    else
      match dropLeadWS (cs1.drop nm.length) with
      | '=' :: rest =>
        match xmlQuoted (dropLeadWS rest) with
        | some (v, rest2) => xmlAttrs fuel rest2 (acc ++ [(String.mk nm, v)])
        | none => none
      | _ => none

mutual

def xmlElem : Nat → List Char → Option (XElem × List Char)
  | 0, _ => none
  | fuel + 1, cs =>
    match cs with
    | '<' :: rest =>
      let nm := rest.takeWhile isXNameC
      if nm.isEmpty then none
      else
        match xmlAttrs fuel (rest.drop nm.length) [] with
        | none => none
        | some (attrs, rest1) =>
          match rest1 with
          | '/' :: '>' :: rest2 => some (.mk (String.mk nm) attrs none [], rest2)
          | '>' :: rest2 =>
            let txt := rest2.takeWhile (fun c => c ≠ '<')
            let text := if txt.isEmpty then none else some (String.mk txt)
            match xmlChildren fuel (rest2.drop txt.length) [] with
            | none => none
            | some (kids, rest3) =>
              match rest3 with
              | '<' :: '/' :: rest4 =>
                if leadsWith nm rest4 then
                  match dropLeadWS (rest4.drop nm.length) with
                  | '>' :: rest5 => some (.mk (String.mk nm) attrs text kids, rest5)
                  | _ => none
                else none
              | _ => none
          | _ => none
    | _ => none

def xmlChildren : Nat → List Char → List XElem → Option (List XElem × List Char)
  | 0, _, _ => none
  | fuel + 1, cs, acc =>
    match cs with
    | '<' :: '/' :: _ => some (acc, cs)
    | '<' :: _ =>
      match xmlElem fuel cs with
      | none => none
      | some (kid, rest) =>
        let rest1 := rest.dropWhile (fun c => c ≠ '<')
        xmlChildren fuel rest1 (acc ++ [kid])
    | _ => none

end

/-- Model of `ET.fromstring`: one root element, nothing but whitespace after it. -/
def xmlFromString (s : String) : Option XElem :=
  match xmlElem (s.length + 1) (dropLeadWS s.toList) with
  | some (e, rest) => if (dropLeadWS rest).isEmpty then some e else none
  | none => none

/-! ## Position-based scanning helpers for the hand-translated regexes

Each Python regex used by the sources is translated into an explicit
matcher.  Greedy pieces whose follow-set is disjoint from their character
class (`\S+\s+`, `\d+` before `:` …) match maximal runs; lazy pieces
(`.*?`) become searches over candidate positions in ascending order, which
is exactly the backtracking order of the `re` engine, so the first
assignment found here is the one `re` reports. -/

def sliceCs (cs : List Char) (a b : Nat) : List Char := (cs.drop a).take (b - a)

def runLen (p : Char → Bool) (cs : List Char) (i : Nat) : Nat :=
  ((cs.drop i).takeWhile p).length

def digitRunLen (cs : List Char) (i : Nat) : Nat := runLen isDigitC cs i
def wsRunLen (cs : List Char) (i : Nat) : Nat := runLen isSpaceC cs i
def nonWsRunLen (cs : List Char) (i : Nat) : Nat := runLen (fun c => !isSpaceC c) cs i
def wordRunLen (cs : List Char) (i : Nat) : Nat := runLen isWordC cs i

def charEqAt (cs : List Char) (p : Nat) (c : Char) : Bool :=
  match cs.get? p with
  | some x => x = c
  | none => false

def digitAt (cs : List Char) (p : Nat) : Bool :=
  match cs.get? p with
  | some x => isDigitC x
  | none => false

def twoDigAt (cs : List Char) (p : Nat) : Bool := digitAt cs p && digitAt cs (p + 1)

def threeDigAt (cs : List Char) (p : Nat) : Bool := twoDigAt cs p && digitAt cs (p + 2)

/-- Ascending indices of occurrences of `c` in `cs`, starting at `i`. -/
def charIdxsAux (c : Char) : List Char → Nat → List Nat
  | [], _ => []
  | x :: xs, i => if x = c then i :: charIdxsAux c xs (i + 1) else charIdxsAux c xs (i + 1)

def charIdxsGe (c : Char) (cs : List Char) (start : Nat) : List Nat :=
  (charIdxsAux c cs 0).filter (fun i => start ≤ i)

/-- Match `\d{1,3}\.` at `p` (an octet followed by a dot): the digit run must
be 1–3 long in full — a longer run cannot shrink to expose the dot. -/
def octetDot (cs : List Char) (p : Nat) : Option Nat :=
  let r := digitRunLen cs p
  if 1 ≤ r && r ≤ 3 && charEqAt cs (p + r) '.' then some (p + r + 1) else none

/-- Match `\d{1,3}(\.\d{1,3}){3}` starting exactly at `p`; returns the end
position of the (greedy) match. -/
def ipv4MatchAt (cs : List Char) (p : Nat) : Option Nat :=
  (octetDot cs p).bind fun p1 =>
    (octetDot cs p1).bind fun p2 =>
      (octetDot cs p2).bind fun p3 =>
        let r := digitRunLen cs p3
        if 1 ≤ r then some (p3 + min r 3) else none

/-! ## `CoreSightEngine` (src/coresight_engine.py)

`parse_universal` and its probes/extractors.  The tuple a parser returns is
`EngRec`; Python `None` is `JValue.jNull`.  `datetime.now().year` becomes the
explicit `year` parameter; an uncaught Python exception (`AttributeError` on
the malformed-but-parsed XML/JSON paths) is `Except.error ()`. -/

structure EngRec where
  ts : JValue
  ip : JValue
  user : JValue
  status : JValue
  event : JValue
deriving Repr

def optJ : Option String → JValue
  | some s => .jStr s
  | none => .jNull

namespace CoreSightEngine

def is_json (line : String) : Bool := pyStartsWith line "\x7b" && pyEndsWith line "\x7d"

def is_windows_xml (line : String) : Bool := pyStartsWith line "<Event"

/-- Model of `re.match(r"^\d,3(\.\d,3),3.*?\[.*?\].*?\"\w+ .*?\" \d+", line)` viewed as a
boolean: brace quantifiers written with commas here; see the source. -/
def is_nginx (line : String) : Bool :=
  let cs := line.toList
  match ipv4MatchAt cs 0 with
  | none => false
  | some e =>
    (charIdxsGe '[' cs e).any fun i =>
      (charIdxsGe ']' cs (i + 1)).any fun j =>
        (charIdxsGe '"' cs (j + 1)).any fun q1 =>
          let w := wordRunLen cs (q1 + 1)
          1 ≤ w && charEqAt cs (q1 + 1 + w) ' ' &&
          ((charIdxsGe '"' cs (q1 + w + 2)).any fun q2 =>
            charEqAt cs (q2 + 1) ' ' && digitAt cs (q2 + 2))

/-- Model of `re.match(r"^\d,4-\d,2-\d,2[T ]\d,2:", line)`. -/
def is_iso (line : String) : Bool :=
  match line.toList with
  | y1 :: y2 :: y3 :: y4 :: '-' :: m1 :: m2 :: '-' :: d1 :: d2 :: t :: h1 :: h2 :: ':' :: _ =>
    isDigitC y1 && isDigitC y2 && isDigitC y3 && isDigitC y4 && isDigitC m1 && isDigitC m2 &&
    isDigitC d1 && isDigitC d2 && (t = 'T' || t = ' ') && isDigitC h1 && isDigitC h2
  | _ => false

/-- Model of `re.match(r"^[A-Z][a-z],2\s+\d+\s+\d,2:\d,2:\d,2", line)`. -/
def is_classic_syslog (line : String) : Bool :=
  let cs := line.toList
  match cs with
  | c1 :: c2 :: c3 :: _ =>
    ('A' ≤ c1 && c1 ≤ 'Z') && ('a' ≤ c2 && c2 ≤ 'z') && ('a' ≤ c3 && c3 ≤ 'z') &&
    (let s1 := wsRunLen cs 3
     let dr := digitRunLen cs (3 + s1)
     let s2 := wsRunLen cs (3 + s1 + dr)
     let p := 3 + s1 + dr + s2
     1 ≤ s1 && 1 ≤ dr && 1 ≤ s2 &&
     twoDigAt cs p && charEqAt cs (p + 2) ':' && twoDigAt cs (p + 3) &&
     charEqAt cs (p + 5) ':' && twoDigAt cs (p + 6))
  | _ => false

/-- Model of `re.search(r"(\d,3(\.\d,3),3)", line)`: leftmost IPv4-shaped substring. -/
def extract_ip (line : String) : Option String :=
  let cs := line.toList
  (List.range (cs.length + 1)).findSome? fun p =>
    (ipv4MatchAt cs p).map fun e => String.mk (sliceCs cs p e)

/-- Model of `re.search(kw ++ "\s+(\S+)", line)` for a literal `kw`. -/
def searchKwGroup (kw : String) (line : String) : Option String :=
  let cs := line.toList
  let k := kw.toList
  (List.range (cs.length + 1)).findSome? fun p =>
    if leadsWith k (cs.drop p) then
      let q := p + k.length
      let s := wsRunLen cs q
      if 1 ≤ s then
        let t := nonWsRunLen cs (q + s)
        if 1 ≤ t then some (String.mk (sliceCs cs (q + s) (q + s + t))) else none
      else none
    else none

def extract_user (line : String) : Option String :=
  match searchKwGroup "user" line with
  | some u => some u
  | none => searchKwGroup "for" line

def extract_sudo_user (line : String) : Option String := searchKwGroup "sudo:" line

def parse_json (line : String) : Except Unit (Option EngRec) :=
  match jsonLoads line with
  | none => .ok none
  | some (.jObj kvs) =>
    let get := fun k => jGet kvs k
    let ts := pyOr (get "timestamp") (pyOr (get "time") (pyOr (get "@timestamp") (.jStr "unknown")))
    let ip := pyOr (get "ip") (pyOr (get "src_ip") (get "source_ip"))
    let user := get "user"
    let status := get "status"
    let e1 := get "event"
    if jTruthy e1 then
      .ok (some ⟨ts, ip, user, status, e1⟩)
    else
      match (jGet? kvs "alert").getD (.jObj []) with
      | .jObj akvs =>
        let event := pyOr (jGet akvs "signature") (pyOr (get "msg") (.jStr "json_event"))
        .ok (some ⟨ts, ip, user, status, event⟩)
      | _ => .error ()
  | some _ => .error ()

def parse_windows_xml (line : String) : Except Unit (Option EngRec) :=
  match xmlFromString line with
  | none => .ok none
  | some root => do
    let syselem := xFind root "System"
    let data := xFind root "EventData"
    let ts ← (match syselem with
      | none => Except.ok "unknown"
      | some sys =>
        match xFind sys "TimeCreated" with
        | none => Except.error ()
        | some tc => Except.ok ((xAttr? tc "SystemTime").getD "unknown"))
    let eventId ← (match syselem with
      | none => Except.ok Option.none
      | some sys =>
        match xFind sys "EventID" with
        | none => Except.error ()
        | some e => Except.ok e.text)
    let st := (match data with
      | none => ((none : Option String), (none : Option String))
      | some d =>
        d.children.foldl (fun (st : Option String × Option String) child =>
          let st1 := if xAttr? child "Name" == some "IpAddress" then (child.text, st.2) else st
          if xAttr? child "Name" == some "SubjectUserName" then (st1.1, child.text) else st1)
          (none, none))
    let event := match eventId with
      | some eid => if eid ≠ "" then "windows_event_" ++ eid else "windows_event"
      | none => "windows_event"
    .ok (some ⟨.jStr ts, optJ st.1, optJ st.2, .jNull, .jStr event⟩)

/-- Groups of `re.match(r"([\d\.]+).*?\[(.*?)\].*?\".*?\" (\d,3)", line)`. -/
def nginxGroups (line : String) : Option (String × String × String) :=
  let cs := line.toList
  let g1 := cs.takeWhile (fun c => isDigitC c || c = '.')
  if g1.isEmpty then none
  else
    (charIdxsGe '[' cs g1.length).findSome? fun i =>
      (charIdxsGe ']' cs (i + 1)).findSome? fun j =>
        (charIdxsGe '"' cs (j + 1)).findSome? fun q1 =>
          (charIdxsGe '"' cs (q1 + 1)).findSome? fun q2 =>
            if charEqAt cs (q2 + 1) ' ' && threeDigAt cs (q2 + 2) then
              some (String.mk g1, String.mk (sliceCs cs (i + 1) j),
                    String.mk (sliceCs cs (q2 + 2) (q2 + 5)))
            else none

def parse_nginx (line : String) : Option EngRec :=
  match nginxGroups line with
  | none => none
  | some (ip, raw_ts, status) =>
    let ts := match pyStrptime fmtAccessZ raw_ts with
      | some dt => pyIsoformat dt
      | none => "unknown"
    some ⟨.jStr ts, .jStr ip, .jNull, .jStr status, .jStr "nginx_access"⟩

/-- Model of `re.match(r"^(\S+)\s+(\S+)\s+(.*)", line)` then field extraction. -/
def parse_iso_syslog (line : String) : Option EngRec :=
  let cs := line.toList
  let t1 := nonWsRunLen cs 0
  let s1 := wsRunLen cs t1
  let t2 := nonWsRunLen cs (t1 + s1)
  let s2 := wsRunLen cs (t1 + s1 + t2)
  if 1 ≤ t1 && 1 ≤ s1 && 1 ≤ t2 && 1 ≤ s2 then
    some ⟨.jStr (String.mk (sliceCs cs 0 t1)), optJ (extract_ip line), optJ (extract_user line),
          .jNull, .jStr "syslog_iso"⟩
  else none

def parse_classic_syslog (year : Nat) (line : String) : EngRec :=
  let raw_ts := String.mk (line.toList.take 15)
  let ts := match pyStrptime fmtBdHMSY (raw_ts ++ " " ++ toString year) with
    | some dt => pyIsoformat dt
    | none => "unknown"
  if pyIn "Failed password" line then
    ⟨.jStr ts, optJ (extract_ip line), .jNull, .jNull, .jStr "failed_ssh"⟩
  else if pyIn "Accepted password" line then
    ⟨.jStr ts, optJ (extract_ip line), optJ (extract_user line), .jNull, .jStr "login_success"⟩
  else if pyIn "sudo:" line then
    ⟨.jStr ts, .jNull, optJ (extract_sudo_user line), .jNull, .jStr "sudo_event"⟩
  else
    ⟨.jStr ts, .jNull, .jNull, .jNull, .jStr "syslog_event"⟩

def parse_generic (line : String) : EngRec :=
  ⟨.jStr "unknown", optJ (extract_ip line), .jNull, .jNull, .jStr "generic_event"⟩

def parse_universal (year : Nat) (line : String) : Except Unit (Option EngRec) :=
  if is_json line then parse_json line
  else if is_windows_xml line then parse_windows_xml line
  else if is_nginx line then .ok (parse_nginx line)
  else if is_iso line then .ok (parse_iso_syslog line)
  else if is_classic_syslog line then .ok (some (parse_classic_syslog year line))
  else .ok (some (parse_generic line))

end CoreSightEngine

/-! ## Shared helpers for the `parsers/` package -/

/-- Parsed dicts and stored rows: ordered string-keyed scalar dictionaries. -/
abbrev RowD := List (String × SVal)

def optS : Option String → SVal
  | some s => .vStr s
  | none => .vNone

/-- Model of `d.get k` (absent key gives `None`). -/
def dictGet (r : RowD) (k : String) : SVal :=
  match r.find? (fun kv => kv.1 = k) with
  | some kv => kv.2
  | none => .vNone

/-- Model of `d.get k default`. -/
def dictGetD (r : RowD) (k : String) (dflt : SVal) : SVal :=
  match r.find? (fun kv => kv.1 = k) with
  | some kv => kv.2
  | none => dflt

/-- Python `x or d` for an optional string (`None` and `""` are falsy). -/
def pyOrS (o : Option String) (d : String) : String :=
  match o with
  | some s => if s = "" then d else s
  | none => d

/-- List `[n, n-1, …, 1]`: the order a greedy `+` quantifier tries run lengths in. -/
def descRange (n : Nat) : List Nat := (List.range n).reverse.map (· + 1)

def fourDigAt (cs : List Char) (p : Nat) : Bool := twoDigAt cs p && twoDigAt cs (p + 2)

/-- Shape `^\d,4-\d,2-\d,2[T ]\d,2:\d,2:\d,2` — the 19-character ISO prefix shape. -/
def iso19At (cs : List Char) : Bool :=
  fourDigAt cs 0 && charEqAt cs 4 '-' && twoDigAt cs 5 && charEqAt cs 7 '-' &&
  twoDigAt cs 8 && (charEqAt cs 10 'T' || charEqAt cs 10 ' ') && twoDigAt cs 11 &&
  charEqAt cs 13 ':' && twoDigAt cs 14 && charEqAt cs 16 ':' && twoDigAt cs 17

/-- End position of `^[A-Z][a-z],2\s+\d,1-2\s+\d,2:\d,2:\d,2` (classic
timestamp prefix), when it matches.  The day run must be 1–2 digits in full. -/
def classicPrefixEnd (cs : List Char) : Option Nat :=
  match cs with
  | c1 :: c2 :: c3 :: _ =>
    if ('A' ≤ c1 && c1 ≤ 'Z') && ('a' ≤ c2 && c2 ≤ 'z') && ('a' ≤ c3 && c3 ≤ 'z') then
      let s1 := wsRunLen cs 3
      let dr := digitRunLen cs (3 + s1)
      let s2 := wsRunLen cs (3 + s1 + dr)
      let p := 3 + s1 + dr + s2
      if 1 ≤ s1 && 1 ≤ dr && dr ≤ 2 && 1 ≤ s2 &&
         twoDigAt cs p && charEqAt cs (p + 2) ':' && twoDigAt cs (p + 3) &&
         charEqAt cs (p + 5) ':' && twoDigAt cs (p + 6) then
        some (p + 8)
      else none
    else none
  | _ => none

/-- Model of `re.search(r"(\d,1-3(\.\d,1-3),3)", s)`: leftmost IPv4-shaped substring. -/
def searchIpv4 (s : String) : Option String :=
  let cs := s.toList
  (List.range (cs.length + 1)).findSome? fun p =>
    (ipv4MatchAt cs p).map fun e => String.mk (sliceCs cs p e)

def strToNatDigits (s : String) : Nat :=
  s.toList.foldl (fun a c => a * 10 + digitVal c) 0

/-- Python `s.split(None, 2)`. -/
def pySplitWS2 (s : String) : List String :=
  let cs := dropLeadWS s.toList
  let t1 := cs.takeWhile (fun c => !isSpaceC c)
  if t1.isEmpty then []
  else
    let r1 := dropLeadWS (cs.drop t1.length)
    let t2 := r1.takeWhile (fun c => !isSpaceC c)
    if t2.isEmpty then [String.mk t1]
    else
      let r2 := dropLeadWS (r1.drop t2.length)
      if r2.isEmpty then [String.mk t1, String.mk t2]
      else [String.mk t1, String.mk t2, String.mk r2]

/-- Model of `s.split(":")[0]`. -/
def colonHead (s : String) : String := String.mk (s.toList.takeWhile (fun c => c ≠ ':'))

/-- Model of `s.split(":", 1)[1]` (only called when `":" in s`). -/
def colonTail (s : String) : String :=
  String.mk ((s.toList.dropWhile (fun c => c ≠ ':')).drop 1)

/-! ## `AccessParser` (src/parsers/access_parser.py) -/

namespace AccessParser

/-- The common tail `\[([^\]]+)\]\s+"(\w+)\s+([^\s"]+)(?:\s+[^"]+)?"\s+(\d,3)\s+(\d+|-)$`
of `PATTERN` and `SIMPLE_PATTERN`, starting at the position `p` of the `[`.
Returns (raw timestamp, method, endpoint, status, size token). -/
def accessTail (cs : List Char) (p : Nat) : Option (String × String × String × String × String) :=
  if !charEqAt cs p '[' then none
  else
    match (charIdxsGe ']' cs (p + 1)).head? with
    | none => none
    | some j =>
      if j < p + 2 then none
      else
        let s4 := wsRunLen cs (j + 1)
        let q := j + 1 + s4
        if s4 = 0 || !charEqAt cs q '"' then none
        else
          let w := wordRunLen cs (q + 1)
          let s5 := wsRunLen cs (q + 1 + w)
          let ep := q + 1 + w + s5
          let e := runLen (fun c => !isSpaceC c && c ≠ '"') cs ep
          if w = 0 || s5 = 0 || e = 0 then none
          else
            let p2 := ep + e
            -- optional `(?:\s+[^"]+)?` then `"`: the two cases need a
            -- whitespace resp. a quote at `p2`, so they never compete
            let quoteQ : Option Nat :=
              if charEqAt cs p2 '"' then some p2
              else if 1 ≤ wsRunLen cs p2 then
                match (charIdxsGe '"' cs p2).head? with
                | some q' => if p2 + 2 ≤ q' then some q' else none
                | none => none
              else none
            match quoteQ with
            | none => none
            | some qq =>
              let s6 := wsRunLen cs (qq + 1)
              let st := qq + 1 + s6
              if s6 = 0 || !threeDigAt cs st then none
              else
                let s7 := wsRunLen cs (st + 3)
                let sz := st + 3 + s7
                if s7 = 0 then none
                else
                  let dr := digitRunLen cs sz
                  let sizeTok : Option String :=
                    if 1 ≤ dr && sz + dr = cs.length then
                      some (String.mk (sliceCs cs sz (sz + dr)))
                    else if charEqAt cs sz '-' && sz + 1 = cs.length then some "-"
                    else none
                  sizeTok.map fun sizeStr =>
                    (String.mk (sliceCs cs (p + 1) j),
                     String.mk (sliceCs cs (q + 1) (q + 1 + w)),
                     String.mk (sliceCs cs ep (ep + e)),
                     String.mk (sliceCs cs st (st + 3)), sizeStr)

/-- Regex `PATTERN`: `^(\S+)\s+(\S+)\s+(\S+)\s+` then the common tail.
Returns (ip, raw timestamp, method, endpoint, status, size token). -/
def patternMatch (cs : List Char) :
    Option (String × String × String × String × String × String) :=
  let t1 := nonWsRunLen cs 0
  let s1 := wsRunLen cs t1
  let t2 := nonWsRunLen cs (t1 + s1)
  let s2 := wsRunLen cs (t1 + s1 + t2)
  let t3 := nonWsRunLen cs (t1 + s1 + t2 + s2)
  let s3 := wsRunLen cs (t1 + s1 + t2 + s2 + t3)
  if 1 ≤ t1 && 1 ≤ s1 && 1 ≤ t2 && 1 ≤ s2 && 1 ≤ t3 && 1 ≤ s3 then
    (accessTail cs (t1 + s1 + t2 + s2 + t3 + s3)).map fun t =>
      (String.mk (sliceCs cs 0 t1), t)
  else none

/-- Regex `SIMPLE_PATTERN`: `^(\S+)\s+-\s+-\s+` then the common tail. -/
def simpleMatch (cs : List Char) :
    Option (String × String × String × String × String × String) :=
  let t1 := nonWsRunLen cs 0
  let s1 := wsRunLen cs t1
  let p1 := t1 + s1
  let s2 := wsRunLen cs (p1 + 1)
  let p2 := p1 + 1 + s2
  let s3 := wsRunLen cs (p2 + 1)
  if 1 ≤ t1 && 1 ≤ s1 && charEqAt cs p1 '-' && 1 ≤ s2 && charEqAt cs p2 '-' && 1 ≤ s3 then
    (accessTail cs (p2 + 1 + s3)).map fun t => (String.mk (sliceCs cs 0 t1), t)
  else none

/-- The lenient fallback `^(\S+).*?\[([^\]]+)\].*?"(\w+)\s+([^\s"]+).*?"\s+(\d,3)`:
`(\S+)` is greedy with backtracking (run lengths descending), the lazy gaps
search candidate positions ascending. -/
def fallbackMatch (cs : List Char) : Option (String × String × String × String × String) :=
  let t := nonWsRunLen cs 0
  if t = 0 then none
  else
    (descRange t).findSome? fun k =>
      (charIdxsGe '[' cs k).findSome? fun i =>
        match (charIdxsGe ']' cs (i + 1)).head? with
        | none => none
        | some j =>
          if j < i + 2 then none
          else
            (charIdxsGe '"' cs (j + 1)).findSome? fun q1 =>
              let w := wordRunLen cs (q1 + 1)
              let s5 := wsRunLen cs (q1 + 1 + w)
              let ep := q1 + 1 + w + s5
              let e := runLen (fun c => !isSpaceC c && c ≠ '"') cs ep
              if w = 0 || s5 = 0 || e = 0 then none
              else
                (charIdxsGe '"' cs (ep + e)).findSome? fun q2 =>
                  let s6 := wsRunLen cs (q2 + 1)
                  if 1 ≤ s6 && threeDigAt cs (q2 + 1 + s6) then
                    some (String.mk (sliceCs cs 0 k), String.mk (sliceCs cs (i + 1) j),
                          String.mk (sliceCs cs (q1 + 1) (q1 + 1 + w)),
                          String.mk (sliceCs cs ep (ep + e)),
                          String.mk (sliceCs cs (q2 + 1 + s6) (q2 + 4 + s6)))
                  else none

/-- Translation of `AccessParser._parse_timestamp`: first matching template wins, otherwise
the raw substring is returned unchanged. -/
def _parse_timestamp (raw_ts : String) : String :=
  match [fmtAccessZ, fmtAccess, fmtYmdHMSspace].findSome? (fun f => pyStrptime f raw_ts) with
  | some dt => pyIsoformat dt
  | none => raw_ts

def sizeVal (size : String) : Int := if size = "-" then 0 else strToNatDigits size

def parse (line0 : String) : Option RowD :=
  let line := pyStrip line0
  if line = "" then none
  else
    let cs := line.toList
    match patternMatch cs with
    | some (ip, raw_ts, method, endpoint, status, size) =>
      some [("timestamp", .vStr (_parse_timestamp raw_ts)), ("ip", .vStr ip),
            ("method", .vStr method), ("endpoint", .vStr endpoint),
            ("status", .vStr status), ("size", .vInt (sizeVal size))]
    | none =>
      match simpleMatch cs with
      | some (ip, raw_ts, method, endpoint, status, size) =>
        some [("timestamp", .vStr (_parse_timestamp raw_ts)), ("ip", .vStr ip),
              ("method", .vStr method), ("endpoint", .vStr endpoint),
              ("status", .vStr status), ("size", .vInt (sizeVal size))]
      | none =>
        match fallbackMatch cs with
        | some (ip, raw_ts, method, endpoint, status) =>
          some [("timestamp", .vStr (_parse_timestamp raw_ts)), ("ip", .vStr ip),
                ("method", .vStr method), ("endpoint", .vStr endpoint),
                ("status", .vStr status), ("size", .vInt 0)]
        | none => none

end AccessParser

/-! ## `SyslogParser` (src/parsers/syslog_parser.py) -/

namespace SyslogParser

/-- Tail `\s+(\S+)\s+(\S+)(?:\[(\d+)\])?:\s*(.*)$` common to both syslog
patterns, starting at `g1End`.  The service `\S+` backtracks from its
maximal run; the optional `[pid]` group is tried before the bare `:`
(their first characters differ, so the order is immaterial for success). -/
def syslogTail (cs : List Char) (g1End : Nat) :
    Option (String × String × Option String × String) :=
  let s1 := wsRunLen cs g1End
  if s1 = 0 then none
  else
    let hp := g1End + s1
    let h := nonWsRunLen cs hp
    if h = 0 then none
    else
      let s2 := wsRunLen cs (hp + h)
      if s2 = 0 then none
      else
        let sp := hp + h + s2
        let sv := nonWsRunLen cs sp
        if sv = 0 then none
        else
          (descRange sv).findSome? fun k =>
            let after := sp + k
            let viaPid : Option (Option String × Nat) :=
              if charEqAt cs after '[' then
                let dr := digitRunLen cs (after + 1)
                if 1 ≤ dr && charEqAt cs (after + 1 + dr) ']' &&
                   charEqAt cs (after + 2 + dr) ':' then
                  some (some (String.mk (sliceCs cs (after + 1) (after + 1 + dr))), after + dr + 3)
                else none
              else none
            let res := match viaPid with
              | some r => some r
              | none => if charEqAt cs after ':' then some (none, after + 1) else none
            res.map fun pr =>
              let s3 := wsRunLen cs pr.2
              (String.mk (sliceCs cs hp (hp + h)), String.mk (sliceCs cs sp (sp + k)),
               pr.1, String.mk (cs.drop (pr.2 + s3)))

/-- Regex `ISO_PATTERN`: 19-character ISO prefix, optional `.\d+`, optional
`[+-]\d\d:\d\d|Z`, then the common tail.  Backtracking order: longer
fraction first, fraction before none; offset alternatives left to right. -/
def isoPatternMatch (cs : List Char) :
    Option (String × String × String × Option String × String) :=
  if iso19At cs then
    let fracEnds := if charEqAt cs 19 '.' then (descRange (digitRunLen cs 20)).map (20 + ·) else []
    (fracEnds ++ [19]).findSome? fun b =>
      let zcands :=
        (if (charEqAt cs b '+' || charEqAt cs b '-') && twoDigAt cs (b + 1) &&
            charEqAt cs (b + 3) ':' && twoDigAt cs (b + 4) then [b + 6] else []) ++
        (if charEqAt cs b 'Z' then [b + 1] else []) ++ [b]
      zcands.findSome? fun z =>
        (syslogTail cs z).map fun (t : String × String × Option String × String) =>
          (String.mk (sliceCs cs 0 z), t.1, t.2.1, t.2.2.1, t.2.2.2)
  else none

/-- Regex `CLASSIC_PATTERN`: classic timestamp prefix then the common tail. -/
def classicPatternMatch (cs : List Char) :
    Option (String × String × String × Option String × String) :=
  match classicPrefixEnd cs with
  | none => none
  | some e =>
    (syslogTail cs e).map fun (t : String × String × Option String × String) =>
      (String.mk (sliceCs cs 0 e), t.1, t.2.1, t.2.2.1, t.2.2.2)

def _parse_iso_timestamp (ts_str : String) : String :=
  let t19 := String.mk (ts_str.toList.take 19)
  match [fmtYmdHMST, fmtYmdHMSspace, fmtYmdHMSTf, fmtYmdHMSTz].findSome?
      (fun f => pyStrptime f t19) with
  | some dt => pyIsoformat dt
  | none => ts_str

def _parse_classic_timestamp (year : Nat) (ts_str : String) : String :=
  match pyStrptime fmtBdHMSY (ts_str ++ " " ++ toString year) with
  | some dt => pyIsoformat dt
  | none => ts_str

def mkDict (timestamp host service : String) (pid : Option String) (message : String) : RowD :=
  let service_full := match pid with
    | some p => service ++ "[" ++ p ++ "]"
    | none => service
  [("timestamp", .vStr timestamp), ("host", .vStr host),
   ("service", .vStr service_full), ("message", .vStr message)]

def fallbackDict (line : String) (timestamp : String) : RowD :=
  let parts := pySplitWS2 line
  let host := match parts.get? 1 with
    | some h => h
    | none => "unknown"
  let service := match parts.get? 2 with
    | some p2 => colonHead p2
    | none => "unknown"
  let message := match parts.get? 2 with
    | some p2 => if pyIn ":" p2 then colonTail p2 else line
    | none => line
  [("timestamp", .vStr timestamp), ("host", .vStr host),
   ("service", .vStr service), ("message", .vStr message)]

def parse (year : Nat) (line0 : String) : Option RowD :=
  let line := pyStrip line0
  if line = "" then none
  else
    let cs := line.toList
    match isoPatternMatch cs with
    | some (ts_str, host, service, pid, message) =>
      some (mkDict (_parse_iso_timestamp ts_str) host service pid message)
    | none =>
      match classicPatternMatch cs with
      | some (ts_str, host, service, pid, message) =>
        some (mkDict (_parse_classic_timestamp year ts_str) host service pid message)
      | none =>
        if iso19At cs then
          some (fallbackDict line (_parse_iso_timestamp (String.mk (cs.take 19))))
        else
          match classicPrefixEnd cs with
          | some e =>
            some (fallbackDict line (_parse_classic_timestamp year (String.mk (cs.take e))))
          | none => none

end SyslogParser

/-! ## `AuthParser` (src/parsers/auth_parser.py) -/

namespace AuthParser

def _parse_iso_timestamp (ts_str : String) : String :=
  let t19 := String.mk (ts_str.toList.take 19)
  match [fmtYmdHMST, fmtYmdHMSspace].findSome? (fun f => pyStrptime f t19) with
  | some dt => pyIsoformat dt
  | none => ts_str

def _parse_classic_timestamp (year : Nat) (ts_str : String) : String :=
  match pyStrptime fmtBdHMSY (ts_str ++ " " ++ toString year) with
  | some dt => pyIsoformat dt
  | none => ts_str

/-- Model of `re.search(r"from\s+(\d,1-3(?:\.\d,1-3),3)", rest)`. -/
def searchFromIp (rest : String) : Option String :=
  let cs := rest.toList
  (List.range (cs.length + 1)).findSome? fun p =>
    if leadsWith "from".toList (cs.drop p) then
      let s := wsRunLen cs (p + 4)
      if 1 ≤ s then
        (ipv4MatchAt cs (p + 4 + s)).map fun e =>
          String.mk (sliceCs cs (p + 4 + s) e)
      else none
    else none

def parse (year : Nat) (line0 : String) : Option RowD :=
  let line := pyStrip line0
  if line = "" then none
  else
    let cs := line.toList
    let tr : Option (String × String) :=
      if iso19At cs then
        some (_parse_iso_timestamp (String.mk (cs.take 19)), pyStrip (String.mk (cs.drop 19)))
      else
        match classicPrefixEnd cs with
        | some e =>
          some (_parse_classic_timestamp year (String.mk (cs.take e)),
                pyStrip (String.mk (cs.drop e)))
        | none => none
    match tr with
    | none => none
    | some (timestamp, rest) =>
      let uai : Option String × Option String × Option String :=
        if pyIn "Accepted password" rest || pyIn "Accepted publickey" rest then
          (CoreSightEngine.searchKwGroup "for" rest, some "login_success", searchFromIp rest)
        else if pyIn "Failed password" rest || pyIn "authentication failure" (lowerStr rest) then
          (match CoreSightEngine.searchKwGroup "for" rest with
           | some u => some u
           | none => CoreSightEngine.searchKwGroup "user" rest,
           some "login_failure", searchFromIp rest)
        else if pyIn "sudo:" rest then
          (CoreSightEngine.searchKwGroup "sudo:" rest, some "sudo", none)
        else if pyIn "authentication" (lowerStr rest) then
          (CoreSightEngine.searchKwGroup "user" rest, some "auth_event", none)
        else (none, none, none)
      let action := pyOrS uai.2.1 "auth_event"
      let ip := match uai.2.2 with
        | some i => some i
        | none => searchIpv4 rest
      some [("timestamp", .vStr timestamp), ("user", .vStr (pyOrS uai.1 "unknown")),
            ("action", .vStr action), ("ip", optS ip)]

end AuthParser

/-! ## `Indexer` (src/index/indexer.py)

`add_log` maps a parsed dict onto the fixed column set of the `logs` table;
the stored row is modelled as the resulting column dictionary (the `id` and
`created_at` columns play no part in any verified property). -/

namespace Indexer

def add_log (log_type : String) (parsed_data : RowD) (raw_line : String) : RowD :=
  [("log_type", .vStr log_type),
   ("timestamp", dictGet parsed_data "timestamp"),
   ("host", dictGet parsed_data "host"),
   ("service", dictGet parsed_data "service"),
   ("message", dictGet parsed_data "message"),
   ("ip", dictGet parsed_data "ip"),
   ("method", dictGet parsed_data "method"),
   ("endpoint", dictGet parsed_data "endpoint"),
   ("status", dictGet parsed_data "status"),
   ("size", dictGetD parsed_data "size" (.vInt 0)),
   ("user", dictGet parsed_data "user"),
   ("action", dictGet parsed_data "action"),
   ("raw", .vStr raw_line)]

end Indexer

/-! ## `LogIngester` (src/utils/log_ingester.py)

The file system is made explicit: `ingest_file` takes the file's lines (the
file-exists and unreadable-file error paths are not modelled — no verified
claim concerns them).  `datetime.now().year`, used by the classic-timestamp
parsers, is the `year` parameter. -/

namespace LogIngester

def pyBasename (p : String) : String :=
  String.mk ((p.toList.reverse.takeWhile (fun c => c ≠ '/')).reverse)

def _detect_log_type (year : Nat) (lines : List String) : String :=
  match (lines.take 5).findSome? (fun l0 =>
      let line := pyStrip l0
      if line = "" then none
      else if (AccessParser.parse line).isSome then some "access"
      else if (AuthParser.parse year line).isSome then some "auth"
      else if (SyslogParser.parse year line).isSome then some "syslog"
      else none) with
  | some t => t
  | none => "syslog"

structure IngestState where
  lt : String
  count : Nat
  errors : Nat
  batch : List (String × RowD × String)
  rows : List RowD

def flushBatch (st : IngestState) : IngestState :=
  { st with
    rows := st.rows ++ st.batch.map (fun b => Indexer.add_log b.1 b.2.1 b.2.2),
    batch := [] }

/-- One iteration of the ingestion `for` loop over a raw input line. -/
def ingestStep (year : Nat) (st : IngestState) (l0 : String) : IngestState :=
  let line := pyStrip l0
  if line = "" then st
  else
    let pr : Option RowD × String :=
      if st.lt = "syslog" then (SyslogParser.parse year line, st.lt)
      else if st.lt = "access" then (AccessParser.parse line, st.lt)
      else if st.lt = "auth" then (AuthParser.parse year line, st.lt)
      else
        match SyslogParser.parse year line with
        | some p => (some p, "syslog")
        | none =>
          match AccessParser.parse line with
          | some p => (some p, "access")
          | none =>
            match AuthParser.parse year line with
            | some p => (some p, "auth")
            | none => (none, st.lt)
    match pr.1 with
    | some p =>
      let st1 := { st with lt := pr.2, count := st.count + 1,
                           batch := st.batch ++ [(pr.2, p, line)] }
      if 100 ≤ st1.batch.length then flushBatch st1 else st1
    | none => { st with lt := pr.2, errors := st.errors + 1 }

def ingestLoop (year : Nat) (ls : List String) (st : IngestState) : IngestState :=
  ls.foldl (ingestStep year) st

def ingest_file (year : Nat) (filepath : String) (lines : List String)
    (log_type : Option String) : String × List RowD :=
  let lt0 :=
    if (log_type.getD "") = "" then
      let filename := lowerStr (pyBasename filepath)
      if pyIn "access" filename || pyIn "nginx" filename || pyIn "apache" filename then "access"
      else if pyIn "auth" filename || pyIn "secure" filename then "auth"
      else if pyIn "syslog" filename || pyIn "messages" filename then "syslog"
      else _detect_log_type year lines
    else log_type.getD ""
  let st := flushBatch (ingestLoop year lines ⟨lt0, 0, 0, [], []⟩)
  let msg := "Ingested " ++ toString st.count ++ " events from " ++ filepath ++
    " (" ++ st.lt ++ " format)" ++
    (if 0 < st.errors then " (" ++ toString st.errors ++ " errors)" else "")
  (msg, st.rows)

end LogIngester

/-! ## `QueryParser` (src/search/query_parser.py)

The parser builds a SQL `WHERE` string by concatenating clause templates.
The embedding builds the clauses as the `SqlCond` datatype — one constructor
per template in the source — together with `renderCond`, which reproduces the
source's f-strings character for character, and `evalCond`, the documented
SQLite semantics of each rendered clause shape on a stored row (`NULL`
comparisons yield no match; `LIKE` with a `%…%` pattern free of wildcards is
a case-insensitive substring test; `TEXT` ordering is code-point order).
`datetime.utcnow()` is the explicit `now` parameter. -/

inductive SqlCond where
  | likeLower (field value : String)
  | eqVal (field value : String)
  | tsGt (iso : String)
  | tsGe (iso : String)
  | tsLe (iso : String)
  | freeText (kwLower : String)
deriving Repr, DecidableEq

def freeTextFields : List String :=
  ["raw", "message", "service", "user", "action", "endpoint", "host"]

def renderCond : SqlCond → String
  | .likeLower f v => "LOWER(" ++ f ++ ") LIKE LOWER('%" ++ v ++ "%')"
  | .eqVal f v => f ++ "='" ++ v ++ "'"
  | .tsGt iso => "timestamp > '" ++ iso ++ "'"
  | .tsGe iso => "timestamp >= '" ++ iso ++ "'"
  | .tsLe iso => "timestamp <= '" ++ iso ++ "'"
  | .freeText kw =>
    "(" ++ String.intercalate " OR "
      (freeTextFields.map fun f =>
        "(" ++ f ++ " IS NOT NULL AND LOWER(" ++ f ++ ") LIKE '%" ++ kw ++ "%')") ++ ")"

def renderWhere (cs : List SqlCond) : String :=
  if cs.isEmpty then "1=1" else String.intercalate " AND " (cs.map renderCond)

/-- Code-point lexicographic order (SQLite TEXT collation BINARY on ASCII,
and Python string comparison). -/
def strLtB : List Char → List Char → Bool
  | [], [] => false
  | [], _ :: _ => true
  | _ :: _, [] => false
  | a :: as, b :: bs =>
    if a.toNat < b.toNat then true
    else if b.toNat < a.toNat then false
    else strLtB as bs

def strLeB (a b : String) : Bool := !(strLtB b.toList a.toList)

/-- SQLite evaluation of one rendered clause against a stored row. -/
def evalCond (r : RowD) : SqlCond → Bool
  | .likeLower f v =>
    (match dictGet r f with
     | .vStr s => pyIn (lowerStr v) (lowerStr s)
     | .vInt n => pyIn (lowerStr v) (toString n)
     | .vNone => false)
  | .eqVal f v =>
    (match dictGet r f with
     | .vStr s => s = v
     | _ => false)
  | .tsGt iso =>
    (match dictGet r "timestamp" with
     | .vStr s => strLtB iso.toList s.toList
     | _ => false)
  | .tsGe iso =>
    (match dictGet r "timestamp" with
     | .vStr s => strLeB iso s
     | _ => false)
  | .tsLe iso =>
    (match dictGet r "timestamp" with
     | .vStr s => strLeB s iso
     | _ => false)
  | .freeText kw =>
    freeTextFields.any fun f =>
      match dictGet r f with
      | .vStr s => pyIn kw (lowerStr s)
      | .vInt n => pyIn kw (toString n)
      | .vNone => false

def evalWhere (cs : List SqlCond) (r : RowD) : Bool := cs.all (evalCond r)

namespace QueryParser

def field_mappings : List (String × String) :=
  [("host", "host"), ("service", "service"), ("ip", "ip"), ("user", "user"),
   ("status", "status"), ("method", "method"), ("endpoint", "endpoint"),
   ("action", "action"), ("log_type", "log_type"), ("type", "log_type")]

def textLikeFields : List String :=
  ["service", "message", "user", "host", "endpoint", "action"]

def tokenizeAux : List Char → List String → List Char → Bool → Option Char → List String
  | [], tokens, current, _, _ =>
    if current.isEmpty then tokens else tokens ++ [String.mk current.reverse]
  | c :: rest, tokens, current, inq, qc =>
    if (c = '"' || c = '\'') && !inq then
      tokenizeAux rest tokens (c :: current) true (some c)
    else if some c = qc && inq then
      tokenizeAux rest (tokens ++ [String.mk (c :: current).reverse]) [] false none
    else if c = ' ' && !inq then
      if current.isEmpty then tokenizeAux rest tokens [] inq qc
      else tokenizeAux rest (tokens ++ [String.mk current.reverse]) [] inq qc
    else tokenizeAux rest tokens (c :: current) inq qc

def _tokenize (text : String) : List String := tokenizeAux text.toList [] [] false none

/-- The `unit` branch chain shared by `_parse_time_filter` and
`_parse_earliest_latest`: seconds per unit character. -/
def unitSeconds (unit : Char) : Option Nat :=
  if unit = 'm' then some 60
  else if unit = 'h' then some 3600
  else if unit = 'd' then some 86400
  else if unit = 'w' then some 604800
  else if unit = 'M' then some 2592000
  else none

def timeUnitClass : List Char := ['m', 'h', 'd', 'w', 'M']

def _parse_time_filter (now : PyDateTime) (token : String) : Option SqlCond :=
  let cs := (lowerStr token).toList
  if leadsWith "last=".toList cs then
    let dr := digitRunLen cs 5
    if dr = 0 then none
    else
      match cs.get? (5 + dr) with
      | some u =>
        if timeUnitClass.contains u then
          let num := strToNatDigits (String.mk (sliceCs cs 5 (5 + dr)))
          match unitSeconds (lowerC u) with
          | some secPer =>
            some (.tsGt (pyIsoformat (subSeconds now (num * secPer))))
          | none => none
        else none
      | none => none
  else none

def replaceAux (p0 : Char) (ps rep : List Char) : Nat → List Char → List Char
  | 0, cs => cs
  | _ + 1, [] => []
  | fuel + 1, c :: cs =>
    if leadsWith (p0 :: ps) (c :: cs) then
      rep ++ replaceAux p0 ps rep fuel (cs.drop ps.length)
    else c :: replaceAux p0 ps rep fuel cs

/-- Python `s.replace(pat, rep)` (all occurrences, left to right).  The fuel
bounds the recursion; one unit is spent per consumed character, so the
length of the string suffices. -/
def pyReplace (s pat rep : String) : String :=
  match pat.toList with
  | [] => s
  | p0 :: ps => String.mk (replaceAux p0 ps rep.toList s.length s.toList)

/-- Model of `datetime.fromtimestamp` with microseconds, modelled at UTC (the code
runs `fromtimestamp` in local time; no verified claim exercises this branch). -/
def pyFromTimestamp (sec micro : Nat) : Option PyDateTime :=
  let total := daysFromCivil 1970 1 1 * 86400 + sec
  let ymd := civilFromDays (total / 86400)
  let rem := total % 86400
  mkDateTime? ymd.1 ymd.2.1 ymd.2.2 (rem / 3600) (rem % 3600 / 60) (rem % 60) micro none

/-- The `@epoch` branch: digits with an optional fraction; values above `1e10`
are treated as milliseconds.  Float rounding beyond microseconds is ignored. -/
def epochParse (time_value : String) : Option PyDateTime :=
  let cs := time_value.toList
  match cs with
  | '@' :: rest =>
    let digs := rest.takeWhile isDigitC
    if digs.isEmpty then none
    else
      let whole := digs.foldl (fun a c => a * 10 + digitVal c) 0
      let fracDigs : List Char :=
        match rest.drop digs.length with
        | '.' :: r => let f := r.takeWhile isDigitC; if f.isEmpty then [] else f
        | _ => []
      let fracMicro := (fracDigs.take 6).foldl (fun a c => a * 10 + digitVal c) 0 *
        10 ^ (6 - min 6 fracDigs.length)
      let totalMicro := whole * 1000000 + fracMicro
      let adjMicro :=
        if 10000000000 < whole || (whole = 10000000000 && 0 < fracMicro) then totalMicro / 1000
        else totalMicro
      pyFromTimestamp (adjMicro / 1000000) (adjMicro % 1000000)
  | _ => none

def _parse_earliest_latest (now : PyDateTime) (token : String) (mode : String) :
    Option SqlCond :=
  let plen := if mode = "earliest" then 9 else 7
  let cs := token.toList
  if cs.length ≤ plen then none
  else
    let time_value := pyStrip (String.mk (cs.drop plen))
    let mk : PyDateTime → SqlCond := fun dt =>
      if mode = "earliest" then .tsGe (pyIsoformat dt) else .tsLe (pyIsoformat dt)
    let tl := (lowerStr time_value).toList
    let rel : Option SqlCond :=
      match tl with
      | '-' :: rest =>
        let dr := (rest.takeWhile isDigitC).length
        if dr = 0 then none
        else
          match rest.get? dr with
          | some u =>
            if timeUnitClass.contains u then
              match unitSeconds (lowerC u) with
              | some secPer =>
                let num := strToNatDigits (String.mk (rest.take dr))
                some (mk (subSeconds now (num * secPer)))
              | none => none
            else none
          | none => none
      | _ => none
    match rel with
    | some c => some c
    | none =>
      if lowerStr time_value = "now" then some (mk now)
      else
        match epochParse time_value with
        | some dt => some (mk dt)
        | none =>
          let dt1 : Option PyDateTime :=
            if pyIn "T" time_value then pyFromIsoformat (pyReplace time_value "Z" "+00:00")
            else none
          let dt2 := match dt1 with
            | some d => some d
            | none => pyStrptime fmtYmdHMSspace time_value
          let dt3 := match dt2 with
            | some d => some d
            | none => pyStrptime [.year4, .lit '-', .monthNum, .lit '-', .dayNum] time_value
          let dt4 := match dt3 with
            | some d => some d
            | none => pyStrptime fmtBdYHMS time_value
          dt4.map mk

/-- Model of `strip('"\'')`: remove leading/trailing double or single quotes. -/
def stripQuotes (s : String) : String :=
  let isQ : Char → Bool := fun c => c = '"' || c = '\''
  String.mk (((s.toList.dropWhile isQ).reverse.dropWhile isQ).reverse)

/-- Model of `strip('"')`. -/
def stripDQuotes (s : String) : String :=
  let isQ : Char → Bool := fun c => c = '"'
  String.mk (((s.toList.dropWhile isQ).reverse.dropWhile isQ).reverse)

def eqHead (s : String) : String := String.mk (s.toList.takeWhile (fun c => c ≠ '='))

def eqTail (s : String) : String :=
  String.mk ((s.toList.dropWhile (fun c => c ≠ '=')).drop 1)

/-- One token of `_parse_search`, in the source's branch order. -/
def tokenClauses (now : PyDateTime) (token : String) : List SqlCond :=
  if pyIn "=" token && !pyStartsWith token "\"" && !pyStartsWith token "last=" &&
     !pyStartsWith token "earliest=" && !pyStartsWith token "latest=" then
    let key := pyStrip (eqHead token)
    let value := stripQuotes (eqTail token)
    match (field_mappings.find? (fun kv => kv.1 = key)) with
    | some kv =>
      let db_field := kv.2
      if textLikeFields.contains db_field then [.likeLower db_field value]
      else [.eqVal db_field value]
    | none => []
  else if pyStartsWith token "last=" then
    match _parse_time_filter now token with
    | some c => [c]
    | none => []
  else if pyStartsWith token "earliest=" then
    match _parse_earliest_latest now token "earliest" with
    | some c => [c]
    | none => []
  else if pyStartsWith token "latest=" then
    match _parse_earliest_latest now token "latest" with
    | some c => [c]
    | none => []
  else if token = "*" then []
  else if pyStartsWith token "\"" && pyEndsWith token "\"" then
    [.freeText (lowerStr (stripDQuotes token))]
  else if !pyIn "=" token then
    [.freeText (lowerStr token)]
  else []

def searchClauses (now : PyDateTime) (search : String) : List SqlCond :=
  if search = "" then []
  else (_tokenize search).flatMap (tokenClauses now)

def _parse_search (now : PyDateTime) (search : String) : String :=
  renderWhere (searchClauses now search)

def splitPipe1 (s : String) : String × String :=
  (String.mk (s.toList.takeWhile (fun c => c ≠ '|')),
   String.mk ((s.toList.dropWhile (fun c => c ≠ '|')).drop 1))

def parse (now : PyDateTime) (query : String) : String × Option String :=
  let q := pyStrip query
  if q = "" then ("1=1", none)
  else if pyIn "|" q then
    let parts := splitPipe1 q
    (_parse_search now (pyStrip parts.1), some (pyStrip parts.2))
  else (_parse_search now q, none)

end QueryParser

/-! ## `QueryEngine` stats (src/search/query_engine.py)

Python dicts keyed by field values are association lists updated in place
(`bump`); `sorted(..)` is a stable sort, modelled by `insertLe`/`sortLe`
(insert before the first strictly-later element under `le`). -/

/-- Model of `r.get(field) or "null"`: the grouping key of one record. -/
def keyOfR (r : RowD) (field : String) : SVal :=
  let v := dictGet r field
  if v.falsy then .vStr "null" else v

/-- Model of `d[key] = d.get(key, 0) + 1` on an insertion-ordered dict. -/
def bump : List (SVal × Nat) → SVal → List (SVal × Nat)
  | [], k => [(k, 1)]
  | (k', c) :: rest, k =>
    if k' = k then (k', c + 1) :: rest else (k', c) :: bump rest k

def countsOf (results : List RowD) (field : String) : List (SVal × Nat) :=
  results.foldl (fun acc r => bump acc (keyOfR r field)) []

/-- Stable insertion: place `a` before the first `b` with `le a b`. -/
def insertLe (le : α → α → Bool) (a : α) : List α → List α
  | [] => [a]
  | b :: l => if le a b then a :: b :: l else b :: insertLe le a l

/-- Stable sort by `le` (equal elements keep their original order when `le`
includes equality, like Python `sorted`). -/
def sortLe (le : α → α → Bool) : List α → List α
  | [] => []
  | a :: l => insertLe le a (sortLe le l)

/-- Comparator of `sorted(counts.items(), key=lambda x: x[1], reverse=True)`. -/
def countDescLe (a b : SVal × Nat) : Bool := b.2 ≤ a.2

/-- Comparator of `sorted(buckets.items())`: ascending tuple order. -/
def bucketAscLe (a b : String × Nat) : Bool :=
  strLtB a.1.toList b.1.toList || (a.1 = b.1 && a.2 ≤ b.2)

namespace QueryEngine

def _count_by (results : List RowD) (field : String) : List RowD :=
  (sortLe countDescLe (countsOf results field)).map fun kv =>
    [("value", kv.1), ("count", .vInt kv.2)]

def _top (results : List RowD) (n : Nat) (field : String) : List RowD :=
  ((sortLe countDescLe (countsOf results field)).take n).map fun kv =>
    [("value", kv.1), ("count", .vInt kv.2)]

/-- Timestamp-to-bucket-key for one record: `none` when the record is
skipped (falsy timestamp, non-string timestamp, or a parse failure). -/
def bucketKey? (interval : String) (r : RowD) : Option String :=
  match dictGet r "timestamp" with
  | .vStr s =>
    if s = "" then none
    else
      let dt? :=
        if pyIn "T" s then pyFromIsoformat (QueryParser.pyReplace s "Z" "+00:00")
        else pyStrptime fmtYmdHMSspace s
      dt?.map fun dt =>
        if interval = "1m" || interval = "minute" then fmtBucketMinute dt
        else if interval = "5m" then
          fmtBucketMinute { dt with minute := dt.minute / 5 * 5, second := 0 }
        else if interval = "1h" || interval = "hour" then fmtBucketHour dt
        else if interval = "1d" || interval = "day" then fmtBucketDay dt
        else fmtBucketHour dt
  | _ => none

def bumpStr : List (String × Nat) → String → List (String × Nat)
  | [], k => [(k, 1)]
  | (k', c) :: rest, k =>
    if k' = k then (k', c + 1) :: rest else (k', c) :: bumpStr rest k

def bucketsOf (results : List RowD) (interval : String) : List (String × Nat) :=
  results.foldl (fun acc r =>
    match bucketKey? interval r with
    | some k => bumpStr acc k
    | none => acc) []

def _time_bucket (results : List RowD) (interval : String) : List RowD :=
  (sortLe bucketAscLe (bucketsOf results interval)).map fun kv =>
    [("time", .vStr kv.1), ("count", .vInt kv.2)]

def _table (results : List RowD) (fields : List String) : List RowD :=
  results.map fun r => fields.map fun f => (f, dictGetD r f (.vStr ""))

/-- Model of `re.match(r"count_by\((\w+)\)", cmd)`-style dispatch helpers: a literal
head, a nonempty word run, a literal `)`. -/
def wordArg? (head : String) (cmd : String) : Option String :=
  let cs := cmd.toList
  if leadsWith head.toList cs then
    let w := wordRunLen cs head.length
    if 1 ≤ w && charEqAt cs (head.length + w) ')' then
      some (String.mk (sliceCs cs head.length (head.length + w)))
    else none
  else none

/-- Model of `re.match(r"top\((\d+),\s*(\w+)\)", cmd)`. -/
def topArgs? (cmd : String) : Option (Nat × String) :=
  let cs := cmd.toList
  if leadsWith "top(".toList cs then
    let d := digitRunLen cs 4
    if 1 ≤ d && charEqAt cs (4 + d) ',' then
      let s := wsRunLen cs (4 + d + 1)
      let p := 4 + d + 1 + s
      let w := wordRunLen cs p
      if 1 ≤ w && charEqAt cs (p + w) ')' then
        some (strToNatDigits (String.mk (sliceCs cs 4 (4 + d))),
              String.mk (sliceCs cs p (p + w)))
      else none
    else none
  else none

/-- Model of `re.match(r"table\(([^)]+)\)", cmd)`. -/
def tableArg? (cmd : String) : Option String :=
  let cs := cmd.toList
  if leadsWith "table(".toList cs then
    let w := runLen (fun c => c ≠ ')') cs 6
    if 1 ≤ w && charEqAt cs (6 + w) ')' then
      some (String.mk (sliceCs cs 6 (6 + w)))
    else none
  else none

/-- Model of `s.split(",")` then `strip` of each part, as in the `table(...)` branch. -/
def splitCommaStrip (s : String) : List String :=
  (splitOnComma s.toList []).map pyStrip
where
  splitOnComma : List Char → List Char → List String
    | [], acc => [String.mk acc.reverse]
    | c :: cs, acc =>
      if c = ',' then String.mk acc.reverse :: splitOnComma cs []
      else splitOnComma cs (c :: acc)

def _run_stats (results : List RowD) (stats_cmd : String) : List RowD :=
  let cmd := lowerStr (pyStrip stats_cmd)
  match wordArg? "count_by(" cmd with
  | some field => _count_by results field
  | none =>
    match topArgs? cmd with
    | some nf => _top results nf.1 nf.2
    | none =>
      match wordArg? "time_bucket(" cmd with
      | some interval => _time_bucket results interval
      | none =>
        match tableArg? cmd with
        | some fs => _table results (splitCommaStrip fs)
        | none =>
          if cmd = "stats count" || cmd = "count" then
            [[("count", .vInt results.length)]]
          else [[("error", .vStr ("Unknown stats command: " ++ cmd))]]

end QueryEngine

/-- Reference "now" used by concrete evaluations: 2025-06-15T12:00:00 UTC. -/
def demoNow : PyDateTime := ⟨2025, 6, 15, 12, 0, 0, 0, none⟩

/-- The `count` column of a stats row, as an integer. -/
def countField (r : RowD) : Int :=
  match dictGet r "count" with
  | .vInt n => n
  | _ => 0

/-- The `value` column of a stats row. -/
def valueField (r : RowD) : SVal := dictGet r "value"

/-- The `time` column of a stats row. -/
def timeField (r : RowD) : SVal := dictGet r "time"

/-- Code-point order on string-valued scalars (used to state "sorted
ascending by bucket key"). -/
def svalLeB : SVal → SVal → Bool
  | .vStr a, .vStr b => strLeB a b
  | _, _ => false

/-- Invariant of the ingestion loop: every pending batch entry and every
stored row carries the state's current `log_type`, and if the current
`log_type` is none of the three known parsers then nothing has been stored
yet (so the type can still change at most once, at the first success). -/
def IngestTypeInv (st : LogIngester.IngestState) : Prop :=
  (∀ b ∈ st.batch, b.1 = st.lt)
  ∧ (∀ row ∈ st.rows, dictGet row "log_type" = .vStr st.lt)
  ∧ (st.lt ≠ "syslog" → st.lt ≠ "access" → st.lt ≠ "auth" →
      st.batch = [] ∧ st.rows = [])

/-- Invariant of the ingestion loop: the raw line of every pending batch
entry and stored row satisfies `Q`. -/
def IngestRawInv (Q : String → Prop) (st : LogIngester.IngestState) : Prop :=
  (∀ b ∈ st.batch, Q b.2.2)
  ∧ (∀ row ∈ st.rows, ∃ s, dictGet row "raw" = .vStr s ∧ Q s)

/-! # Theorems

General lemmas about the sorting and counting helpers, then one theorem per
claim (with its witness / counterexample). -/

theorem insertLe_perm (le : α → α → Bool) (a : α) (l : List α) :
    List.Perm (insertLe le a l) (a :: l) := by
  induction l with
  | nil => simp [insertLe]
  | cons b l ih =>
    simp only [insertLe]
    by_cases h : le a b = true
    · rw [if_pos h]
    · rw [if_neg h]
      exact (ih.cons b).trans (List.Perm.swap a b l)

theorem sortLe_perm (le : α → α → Bool) (l : List α) : List.Perm (sortLe le l) l := by
  induction l with
  | nil => simp [sortLe]
  | cons a l ih => exact (insertLe_perm le a (sortLe le l)).trans (ih.cons a)

theorem mem_insertLe {le : α → α → Bool} {a x : α} {l : List α} :
    x ∈ insertLe le a l ↔ x = a ∨ x ∈ l := by
  rw [(insertLe_perm le a l).mem_iff]
  simp

theorem insertLe_sorted (le : α → α → Bool)
    (htot : ∀ a b, le a b = false → le b a = true)
    (htrans : ∀ a b c, le a b = true → le b c = true → le a c = true)
    (a : α) (l : List α) (h : List.Sorted (fun x y => le x y = true) l) :
    List.Sorted (fun x y => le x y = true) (insertLe le a l) := by
  induction l with
  | nil => simp [insertLe]
  | cons b l ih =>
    rw [List.sorted_cons] at h
    simp only [insertLe]
    by_cases hab : le a b = true
    · rw [if_pos hab, List.sorted_cons]
      refine ⟨?_, by rw [List.sorted_cons]; exact h⟩
      intro x hx
      rcases List.mem_cons.mp hx with hx | hx
      · subst hx
        exact hab
      · exact htrans a b x hab (h.1 x hx)
    · rw [if_neg hab, List.sorted_cons]
      refine ⟨?_, ih h.2⟩
      intro x hx
      rcases mem_insertLe.mp hx with hx | hx
      · rw [hx]
        exact htot a b (by simpa using hab)
      · exact h.1 x hx

theorem sortLe_sorted (le : α → α → Bool)
    (htot : ∀ a b, le a b = false → le b a = true)
    (htrans : ∀ a b c, le a b = true → le b c = true → le a c = true)
    (l : List α) : List.Sorted (fun x y => le x y = true) (sortLe le l) := by
  induction l with
  | nil => simp [sortLe]
  | cons a l ih => exact insertLe_sorted le htot htrans a (sortLe le l) ih

theorem strLtB_irrefl : ∀ as : List Char, strLtB as as = false := by
  intro as
  induction as with
  | nil => rfl
  | cons a as ih => simp [strLtB, ih]

theorem strLtB_trans : ∀ as bs cs : List Char,
    strLtB as bs = true → strLtB bs cs = true → strLtB as cs = true := by
  intro as
  induction as with
  | nil =>
    intro bs cs h1 h2
    cases bs with
    | nil => exact absurd h1 (by simp [strLtB])
    | cons b bs =>
      cases cs with
      | nil => exact absurd h2 (by simp [strLtB])
      | cons c cs => rfl
  | cons a as ih =>
    intro bs cs h1 h2
    cases bs with
    | nil => exact absurd h1 (by simp [strLtB])
    | cons b bs =>
      cases cs with
      | nil => exact absurd h2 (by simp [strLtB])
      | cons c cs =>
        simp only [strLtB] at h1 h2 ⊢
        split_ifs at h1 h2 ⊢ <;>
          first
          | rfl
          | omega
          | (exact ih bs cs h1 h2)

theorem strLtB_total : ∀ as bs : List Char,
    strLtB as bs = false → strLtB bs as = false → as = bs := by
  intro as
  induction as with
  | nil =>
    intro bs h1 _
    cases bs with
    | nil => rfl
    | cons b bs => exact absurd h1 (by simp [strLtB])
  | cons a as ih =>
    intro bs h1 h2
    cases bs with
    | nil => exact absurd h2 (by simp [strLtB])
    | cons b bs =>
      simp only [strLtB] at h1 h2
      split_ifs at h1 h2
      first
      | omega
      | (have hab : a = b :=
           Char.eq_of_val_eq (UInt32.ext (show a.toNat = b.toNat by omega))
         rw [hab, ih bs h1 h2])
theorem strLtB_asymm {as bs : List Char} (h : strLtB as bs = true) :
    strLtB bs as = false := by
  cases h2 : strLtB bs as
  · rfl
  · exact absurd (strLtB_trans as bs as h h2) (by simp [strLtB_irrefl])

theorem toList_eq_of_str_eq {s t : String} (h : s.toList = t.toList) : s = t := by
  cases s
  cases t
  exact congrArg String.mk (by simpa [String.toList] using h)

theorem countDescLe_total : ∀ a b : SVal × Nat,
    countDescLe a b = false → countDescLe b a = true := by
  intro a b h
  simp only [countDescLe, decide_eq_false_iff_not, decide_eq_true_eq, not_le] at h ⊢
  omega

theorem countDescLe_trans : ∀ a b c : SVal × Nat,
    countDescLe a b = true → countDescLe b c = true → countDescLe a c = true := by
  intro a b c h1 h2
  simp only [countDescLe, decide_eq_true_eq] at h1 h2 ⊢
  omega

theorem bucketAscLe_total : ∀ a b : String × Nat,
    bucketAscLe a b = false → bucketAscLe b a = true := by
  intro a b h
  simp only [bucketAscLe, Bool.or_eq_false_iff, Bool.and_eq_false_iff,
    decide_eq_false_iff_not] at h
  rcases h with ⟨hlt, heq⟩
  by_cases h2 : strLtB b.1.toList a.1.toList = true
  · simp only [bucketAscLe, Bool.or_eq_true]
    exact Or.inl h2
  · have hab : a.1 = b.1 :=
      toList_eq_of_str_eq (strLtB_total a.1.toList b.1.toList hlt (by simpa using h2))
    rcases heq with he | hle
    · exact absurd hab he
    · simp only [bucketAscLe, Bool.or_eq_true, Bool.and_eq_true, decide_eq_true_eq]
      right
      refine ⟨hab.symm, ?_⟩
      simp only [decide_eq_true_eq, not_le] at hle
      omega

theorem bucketAscLe_trans : ∀ a b c : String × Nat,
    bucketAscLe a b = true → bucketAscLe b c = true → bucketAscLe a c = true := by
  intro a b c h1 h2
  simp only [bucketAscLe, Bool.or_eq_true, Bool.and_eq_true, decide_eq_true_eq] at h1 h2 ⊢
  rcases h1 with h1 | h1
  · rcases h2 with h2 | h2
    · exact Or.inl (strLtB_trans _ _ _ h1 h2)
    · exact Or.inl (h2.1 ▸ h1)
  · rcases h2 with h2 | h2
    · exact Or.inl (h1.1 ▸ h2)
    · exact Or.inr ⟨h1.1.trans h2.1, h1.2.trans h2.2⟩

theorem bump_sum (counts : List (SVal × Nat)) (k : SVal) :
    ((bump counts k).map Prod.snd).sum = (counts.map Prod.snd).sum + 1 := by
  induction counts with
  | nil => simp [bump]
  | cons p rest ih =>
    obtain ⟨k', c⟩ := p
    simp only [bump]
    by_cases h : k' = k
    · rw [if_pos h]
      simp only [List.map_cons, List.sum_cons]
      omega
    · rw [if_neg h]
      simp only [List.map_cons, List.sum_cons, ih]
      omega

theorem keys_bump (counts : List (SVal × Nat)) (k : SVal) :
    (bump counts k).map Prod.fst =
      (if k ∈ counts.map Prod.fst then counts.map Prod.fst
       else counts.map Prod.fst ++ [k]) := by
  induction counts with
  | nil => simp [bump]
  | cons p rest ih =>
    obtain ⟨k', c⟩ := p
    simp only [bump]
    by_cases h : k' = k
    · rw [if_pos h]
      simp [h]
    · rw [if_neg h]
      by_cases hm : k ∈ rest.map Prod.fst
      · simp only [List.map_cons, ih, if_pos hm]
        rw [if_pos (List.mem_cons_of_mem _ hm)]
      · simp only [List.map_cons, ih, if_neg hm]
        rw [if_neg (by
          simp only [List.mem_cons]
          push_neg
          exact ⟨fun hh => h hh.symm, hm⟩)]
        simp

theorem keys_bump_nodup {counts : List (SVal × Nat)} (k : SVal)
    (h : (counts.map Prod.fst).Nodup) : ((bump counts k).map Prod.fst).Nodup := by
  rw [keys_bump]
  by_cases hm : k ∈ counts.map Prod.fst
  · rw [if_pos hm]
    exact h
  · rw [if_neg hm]
    simp [List.nodup_append, h, hm]

theorem mem_keys_bump (counts : List (SVal × Nat)) (k : SVal) :
    k ∈ (bump counts k).map Prod.fst := by
  rw [keys_bump]
  by_cases hm : k ∈ counts.map Prod.fst
  · rwa [if_pos hm]
  · rw [if_neg hm]
    simp

theorem keys_bump_mono {counts : List (SVal × Nat)} {x : SVal} (k : SVal)
    (h : x ∈ counts.map Prod.fst) : x ∈ (bump counts k).map Prod.fst := by
  rw [keys_bump]
  by_cases hm : k ∈ counts.map Prod.fst
  · rwa [if_pos hm]
  · rw [if_neg hm]
    simp [h]

theorem countsFold_sum (field : String) : ∀ (rs : List RowD) (acc : List (SVal × Nat)),
    ((rs.foldl (fun a r => bump a (keyOfR r field)) acc).map Prod.snd).sum =
      (acc.map Prod.snd).sum + rs.length := by
  intro rs
  induction rs with
  | nil => simp
  | cons r rs ih =>
    intro acc
    simp only [List.foldl_cons, List.length_cons]
    rw [ih, bump_sum]
    omega

theorem countsOf_sum (results : List RowD) (field : String) :
    ((countsOf results field).map Prod.snd).sum = results.length := by
  simpa [countsOf] using countsFold_sum field results []

theorem countsFold_nodup (field : String) : ∀ (rs : List RowD) (acc : List (SVal × Nat)),
    (acc.map Prod.fst).Nodup →
    ((rs.foldl (fun a r => bump a (keyOfR r field)) acc).map Prod.fst).Nodup := by
  intro rs
  induction rs with
  | nil => exact fun _ h => h
  | cons r rs ih =>
    intro acc h
    simp only [List.foldl_cons]
    exact ih _ (keys_bump_nodup _ h)

theorem countsOf_nodup (results : List RowD) (field : String) :
    ((countsOf results field).map Prod.fst).Nodup :=
  countsFold_nodup field results [] (by simp)

theorem countsFold_mono (field : String) : ∀ (rs : List RowD) (acc : List (SVal × Nat))
    (x : SVal), x ∈ acc.map Prod.fst →
    x ∈ (rs.foldl (fun a r => bump a (keyOfR r field)) acc).map Prod.fst := by
  intro rs
  induction rs with
  | nil => exact fun _ _ h => h
  | cons r rs ih =>
    intro acc x h
    simp only [List.foldl_cons]
    exact ih _ x (keys_bump_mono _ h)

theorem countsOf_mem (results : List RowD) (field : String) :
    ∀ r ∈ results, keyOfR r field ∈ (countsOf results field).map Prod.fst := by
  suffices h : ∀ (rs : List RowD) (acc : List (SVal × Nat)), ∀ r ∈ rs,
      keyOfR r field ∈ (rs.foldl (fun a r' => bump a (keyOfR r' field)) acc).map Prod.fst by
    intro r hr
    exact h results [] r hr
  intro rs
  induction rs with
  | nil => simp
  | cons r0 rs ih =>
    intro acc r hr
    simp only [List.foldl_cons]
    rcases List.mem_cons.mp hr with hr | hr
    · rw [hr]
      exact countsFold_mono field rs _ _ (mem_keys_bump acc _)
    · exact ih _ r hr

/-- Claim C1, counterexample: the line that starts with a brace and ends with
a brace but is not valid JSON matches the JSON shape probe, fails extraction,
and `parse_universal` then returns no record at all — it does not fall
through to any later probe or to the generic fallback, refuting "classification
produces a record for every non-empty line". -/
theorem C1_counterexample :
    CoreSightEngine.is_json "\x7bnot json\x7d" = true
    ∧ jsonLoads "\x7bnot json\x7d" = none
    ∧ CoreSightEngine.parse_json "\x7bnot json\x7d" = Except.ok none
    ∧ CoreSightEngine.parse_universal 2025 "\x7bnot json\x7d" = Except.ok none
    ∧ ("\x7bnot json\x7d" : String) ≠ "" :=
  ⟨by decide, by rfl, by rfl, by rfl, by decide⟩

/-- Claim C1, amended: when a shape probe matches, its extractor's result is
final — a JSON- or XML-shaped line whose extraction fails produces no record
(the line is dropped), and the generic fallback applies only to lines no
probe matches. -/
theorem C1_no_fallthrough (year : Nat) (line : String) :
    (CoreSightEngine.is_json line = true →
      CoreSightEngine.parse_universal year line = CoreSightEngine.parse_json line)
    ∧ (CoreSightEngine.is_json line = true →
       CoreSightEngine.parse_json line = Except.ok none →
      CoreSightEngine.parse_universal year line = Except.ok none)
    ∧ (CoreSightEngine.is_json line = false → CoreSightEngine.is_windows_xml line = true →
      CoreSightEngine.parse_universal year line = CoreSightEngine.parse_windows_xml line)
    ∧ (CoreSightEngine.is_json line = false → CoreSightEngine.is_windows_xml line = false →
      CoreSightEngine.is_nginx line = false → CoreSightEngine.is_iso line = false →
      CoreSightEngine.is_classic_syslog line = false →
      CoreSightEngine.parse_universal year line =
        Except.ok (some (CoreSightEngine.parse_generic line))) := by
  refine ⟨?_, ?_, ?_, ?_⟩
  · intro h1
    simp only [CoreSightEngine.parse_universal, h1, if_true]
  · intro h1 h2
    simp only [CoreSightEngine.parse_universal, h1, if_true, h2]
  · intro h1 h2
    simp only [CoreSightEngine.parse_universal, h1, h2, Bool.false_eq_true, if_false, if_true]
  · intro h1 h2 h3 h4 h5
    simp only [CoreSightEngine.parse_universal, h1, h2, h3, h4, h5, Bool.false_eq_true,
      if_false]

theorem C1_witness :
    CoreSightEngine.parse_universal 2025 "<Event oops" = Except.ok none
    ∧ CoreSightEngine.parse_universal 2025 "plain text" =
        Except.ok (some (CoreSightEngine.parse_generic "plain text")) := by
  constructor
  · have h := (C1_no_fallthrough 2025 "<Event oops").2.2.1 (by decide) (by decide)
    rw [h]
    rfl
  · exact (C1_no_fallthrough 2025 "plain text").2.2.2 (by decide) (by decide) (by decide)
      (by decide) (by decide)

/-- Claim C2 (code bug): `_parse_time_filter` lower-cases the whole token
before matching, so the unit letter `M` can never reach its `2592000`-second
branch — `last=1M` is parsed exactly like `last=1m` and yields a cutoff of
now minus one minute (here `2025-06-15T11:59:00` for a "now" of
`2025-06-15T12:00:00`), not now minus ~30 days (`2025-05-16T12:00:00`).
The same happens to relative `earliest=`/`latest=` specs. -/
theorem C2_last_1M_means_one_minute :
    QueryParser._parse_time_filter demoNow "last=1M" =
      some (.tsGt "2025-06-15T11:59:00")
    ∧ QueryParser._parse_time_filter demoNow "last=1m" =
      some (.tsGt "2025-06-15T11:59:00")
    ∧ QueryParser._parse_earliest_latest demoNow "earliest=-1M" "earliest" =
      some (.tsGe "2025-06-15T11:59:00")
    ∧ pyIsoformat (subSeconds demoNow 2592000) = "2025-05-16T12:00:00"
    ∧ pyIsoformat (subSeconds demoNow 60) = "2025-06-15T11:59:00" :=
  ⟨by decide, by decide, by decide, by decide, by decide⟩

/-- Claim C4, counterexample: `CoreSightEngine.parse_nginx` does not keep an
unparseable bracketed timestamp — it replaces it with the string `"unknown"`. -/
theorem C4_counterexample :
    CoreSightEngine.parse_nginx "1.2.3.4 - - [badts] \"GET / HTTP/1.1\" 200 5" =
      some ⟨.jStr "unknown", .jStr "1.2.3.4", .jNull, .jStr "200", .jStr "nginx_access"⟩
    ∧ ("unknown" : String) ≠ "badts" :=
  ⟨by rfl, by decide⟩

/-- Claim C4, amended: `AccessParser._parse_timestamp` returns the original
substring unchanged (and cannot raise) when every template fails, but the
engine's `parse_nginx` instead substitutes `"unknown"` for a timestamp its
single template cannot parse. -/
theorem C4_soft_fail_split :
    (∀ raw_ts : String,
      [fmtAccessZ, fmtAccess, fmtYmdHMSspace].findSome? (fun f => pyStrptime f raw_ts) = none →
      AccessParser._parse_timestamp raw_ts = raw_ts)
    ∧ (∀ line ip raw_ts status : String,
        CoreSightEngine.nginxGroups line = some (ip, raw_ts, status) →
        pyStrptime fmtAccessZ raw_ts = none →
        CoreSightEngine.parse_nginx line =
          some ⟨.jStr "unknown", .jStr ip, .jNull, .jStr status, .jStr "nginx_access"⟩) := by
  constructor
  · intro raw_ts h
    simp only [AccessParser._parse_timestamp, h]
  · intro line ip raw_ts status h1 h2
    simp only [CoreSightEngine.parse_nginx, h1, h2]

theorem C4_witness :
    [fmtAccessZ, fmtAccess, fmtYmdHMSspace].findSome? (fun f => pyStrptime f "badts") = none
    ∧ AccessParser._parse_timestamp "badts" = "badts"
    ∧ CoreSightEngine.nginxGroups "1.2.3.4 - - [badts] \"GET / HTTP/1.1\" 200 5" =
        some ("1.2.3.4", "badts", "200")
    ∧ pyStrptime fmtAccessZ "badts" = none
    ∧ CoreSightEngine.parse_nginx "1.2.3.4 - - [badts] \"GET / HTTP/1.1\" 200 5" =
        some ⟨.jStr "unknown", .jStr "1.2.3.4", .jNull, .jStr "200", .jStr "nginx_access"⟩ :=
  ⟨by decide, C4_soft_fail_split.1 "badts" (by decide), by decide, by decide,
   C4_soft_fail_split.2 _ "1.2.3.4" "badts" "200" (by decide) (by decide)⟩

/-- Claim C7: the round-trip property for the canonical web-access line —
`AccessParser.parse` extracts ip, method, endpoint, status and size, and
normalizes the timestamp to ISO-8601 keeping the `+0000` offset (rendered
`+00:00`); ingesting the line stores exactly those fields with the line as
`raw`. -/
theorem C7_access_roundtrip :
    AccessParser.parse
      "192.168.1.1 - - [13/Feb/2025:11:22:33 +0000] \"GET /api/users HTTP/1.1\" 200 1234" =
      some [("timestamp", .vStr "2025-02-13T11:22:33+00:00"), ("ip", .vStr "192.168.1.1"),
            ("method", .vStr "GET"), ("endpoint", .vStr "/api/users"),
            ("status", .vStr "200"), ("size", .vInt 1234)]
    ∧ (LogIngester.ingest_file 2025 "access.log"
        ["192.168.1.1 - - [13/Feb/2025:11:22:33 +0000] \"GET /api/users HTTP/1.1\" 200 1234"]
        none).2 =
      [[("log_type", .vStr "access"), ("timestamp", .vStr "2025-02-13T11:22:33+00:00"),
        ("host", .vNone), ("service", .vNone), ("message", .vNone),
        ("ip", .vStr "192.168.1.1"), ("method", .vStr "GET"), ("endpoint", .vStr "/api/users"),
        ("status", .vStr "200"), ("size", .vInt 1234), ("user", .vNone), ("action", .vNone),
        ("raw", .vStr
          "192.168.1.1 - - [13/Feb/2025:11:22:33 +0000] \"GET /api/users HTTP/1.1\" 200 1234")]] :=
  ⟨by decide, by decide⟩

theorem dictGet_add_log_type (lt : String) (p : RowD) (raw : String) :
    dictGet (Indexer.add_log lt p raw) "log_type" = .vStr lt := rfl

theorem flushBatch_types {st : LogIngester.IngestState} (h : IngestTypeInv st) :
    IngestTypeInv (LogIngester.flushBatch st) := by
  obtain ⟨hb, hr, he⟩ := h
  refine ⟨by simp [LogIngester.flushBatch], ?_, ?_⟩
  · intro row hrow
    simp only [LogIngester.flushBatch, List.mem_append, List.mem_map] at hrow
    rcases hrow with hrow | ⟨b, hbmem, rfl⟩
    · exact hr row hrow
    · rw [dictGet_add_log_type]
      rw [hb b hbmem]
      rfl
  · intro h1 h2 h3
    obtain ⟨hbe, hre⟩ := he h1 h2 h3
    simp [LogIngester.flushBatch, hbe, hre]

theorem ingestStep_types (year : Nat) (st : LogIngester.IngestState) (l0 : String)
    (h : IngestTypeInv st) : IngestTypeInv (LogIngester.ingestStep year st l0) := by
  unfold LogIngester.ingestStep
  by_cases hline : pyStrip l0 = ""
  · rwa [if_pos hline]
  · rw [if_neg hline]
    by_cases h1 : st.lt = "syslog"
    · rw [if_pos h1]
      cases hp : SyslogParser.parse year (pyStrip l0) with
      | none => exact h
      | some p =>
        have hinv : IngestTypeInv
            { st with
              lt := st.lt, count := st.count + 1,
              batch := st.batch ++ [(st.lt, p, pyStrip l0)] } := by
          obtain ⟨hb, hr, he⟩ := h
          refine ⟨?_, hr, fun hn1 _ _ => absurd h1 hn1⟩
          intro b hbmem
          rcases List.mem_append.mp hbmem with hm | hm
          · exact hb b hm
          · rw [List.mem_singleton.mp hm]
        dsimp only
        split
        · exact flushBatch_types hinv
        · exact hinv
    · rw [if_neg h1]
      by_cases h2 : st.lt = "access"
      · rw [if_pos h2]
        cases hp : AccessParser.parse (pyStrip l0) with
        | none => exact h
        | some p =>
          have hinv : IngestTypeInv
              { st with
                lt := st.lt, count := st.count + 1,
                batch := st.batch ++ [(st.lt, p, pyStrip l0)] } := by
            obtain ⟨hb, hr, he⟩ := h
            refine ⟨?_, hr, fun _ hn2 _ => absurd h2 hn2⟩
            intro b hbmem
            rcases List.mem_append.mp hbmem with hm | hm
            · exact hb b hm
            · rw [List.mem_singleton.mp hm]
          dsimp only
          split
          · exact flushBatch_types hinv
          · exact hinv
      · rw [if_neg h2]
        by_cases h3 : st.lt = "auth"
        · rw [if_pos h3]
          cases hp : AuthParser.parse year (pyStrip l0) with
          | none => exact h
          | some p =>
            have hinv : IngestTypeInv
                { st with
                  lt := st.lt, count := st.count + 1,
                  batch := st.batch ++ [(st.lt, p, pyStrip l0)] } := by
              obtain ⟨hb, hr, he⟩ := h
              refine ⟨?_, hr, fun _ _ hn3 => absurd h3 hn3⟩
              intro b hbmem
              rcases List.mem_append.mp hbmem with hm | hm
              · exact hb b hm
              · rw [List.mem_singleton.mp hm]
            dsimp only
            split
            · exact flushBatch_types hinv
            · exact hinv
        · rw [if_neg h3]
          obtain ⟨hb, hr, he⟩ := h
          obtain ⟨hbe, hre⟩ := he h1 h2 h3
          cases hs : SyslogParser.parse year (pyStrip l0) with
          | some p =>
            have hinv : IngestTypeInv
                { st with
                  lt := "syslog", count := st.count + 1,
                  batch := st.batch ++ [("syslog", p, pyStrip l0)] } := by
              refine ⟨?_, ?_, fun hn1 _ _ => absurd rfl hn1⟩
              · intro b hbmem
                have hb1 : b = ("syslog", p, pyStrip l0) := by
                  rw [hbe] at hbmem
                  simpa using hbmem
                rw [hb1]
              · intro row hrow
                rw [hre] at hrow
                exact absurd hrow (List.not_mem_nil row)
            dsimp only
            split
            · exact flushBatch_types hinv
            · exact hinv
          | none =>
            cases ha : AccessParser.parse (pyStrip l0) with
            | some p =>
              have hinv : IngestTypeInv
                  { st with
                    lt := "access", count := st.count + 1,
                    batch := st.batch ++ [("access", p, pyStrip l0)] } := by
                refine ⟨?_, ?_, fun _ hn2 _ => absurd rfl hn2⟩
                · intro b hbmem
                  have hb1 : b = ("access", p, pyStrip l0) := by
                    rw [hbe] at hbmem
                    simpa using hbmem
                  rw [hb1]
                · intro row hrow
                  rw [hre] at hrow
                  exact absurd hrow (List.not_mem_nil row)
              dsimp only
              split
              · exact flushBatch_types hinv
              · exact hinv
            | none =>
              cases hu : AuthParser.parse year (pyStrip l0) with
              | some p =>
                have hinv : IngestTypeInv
                    { st with
                      lt := "auth", count := st.count + 1,
                      batch := st.batch ++ [("auth", p, pyStrip l0)] } := by
                  refine ⟨?_, ?_, fun _ _ hn3 => absurd rfl hn3⟩
                  · intro b hbmem
                    have hb1 : b = ("auth", p, pyStrip l0) := by
                      rw [hbe] at hbmem
                      simpa using hbmem
                    rw [hb1]
                  · intro row hrow
                    rw [hre] at hrow
                    exact absurd hrow (List.not_mem_nil row)
                dsimp only
                split
                · exact flushBatch_types hinv
                · exact hinv
              | none => exact ⟨hb, hr, fun _ _ _ => ⟨hbe, hre⟩⟩


theorem ingestLoop_types (year : Nat) (ls : List String) :
    ∀ st : LogIngester.IngestState, IngestTypeInv st →
      IngestTypeInv (LogIngester.ingestLoop year ls st) := by
  induction ls with
  | nil => exact fun _ h => h
  | cons l ls ih => exact fun st h => ih _ (ingestStep_types year st l h)

/-- Claim C3, amended: `ingest_file` settles on a single log type per file
(from the explicit argument, the filename, content detection, or — for an
unknown explicit type — the first successfully parsed line) and every record
it stores carries that one type; lines of a different format are not
classified per-line but fail the chosen parser and are counted as errors. -/
theorem C3_single_log_type_per_file (year : Nat) (fp : String) (lines : List String)
    (lt : Option String) :
    ∃ t : String, ∀ row ∈ (LogIngester.ingest_file year fp lines lt).2,
      dictGet row "log_type" = .vStr t := by
  have hinit : ∀ lt0 : String, IngestTypeInv ⟨lt0, 0, 0, [], []⟩ :=
    fun lt0 => ⟨by simp, by simp, fun _ _ _ => ⟨rfl, rfl⟩⟩
  exact ⟨_, (flushBatch_types (ingestLoop_types year lines _ (hinit _))).2.1⟩

theorem dictGet_add_log_raw (lt : String) (p : RowD) (raw : String) :
    dictGet (Indexer.add_log lt p raw) "raw" = .vStr raw := rfl

theorem flushBatch_raw {Q : String → Prop} {st : LogIngester.IngestState}
    (h : IngestRawInv Q st) : IngestRawInv Q (LogIngester.flushBatch st) := by
  obtain ⟨hb, hr⟩ := h
  refine ⟨by simp [LogIngester.flushBatch], ?_⟩
  intro row hrow
  simp only [LogIngester.flushBatch, List.mem_append, List.mem_map] at hrow
  rcases hrow with hrow | ⟨b, hbmem, rfl⟩
  · exact hr row hrow
  · exact ⟨b.2.2, dictGet_add_log_raw b.1 b.2.1 b.2.2, hb b hbmem⟩

theorem ingestStep_raw (year : Nat) (st : LogIngester.IngestState) (l0 : String)
    {Q : String → Prop} (h : IngestRawInv Q st) (hq : pyStrip l0 ≠ "" → Q (pyStrip l0)) :
    IngestRawInv Q (LogIngester.ingestStep year st l0) := by
  unfold LogIngester.ingestStep
  by_cases hline : pyStrip l0 = ""
  · rwa [if_pos hline]
  · rw [if_neg hline]
    have hQ : Q (pyStrip l0) := hq hline
    have hext : ∀ t : String, ∀ p : RowD,
        IngestRawInv Q
          { st with
            lt := t, count := st.count + 1,
            batch := st.batch ++ [(t, p, pyStrip l0)] } := by
      intro t p
      refine ⟨?_, h.2⟩
      intro b hbmem
      rcases List.mem_append.mp hbmem with hm | hm
      · exact h.1 b hm
      · rw [List.mem_singleton.mp hm]
        exact hQ
    by_cases h1 : st.lt = "syslog"
    · rw [if_pos h1]
      cases hp : SyslogParser.parse year (pyStrip l0) with
      | none => exact h
      | some p =>
        dsimp only
        split
        · exact flushBatch_raw (hext st.lt p)
        · exact hext st.lt p
    · rw [if_neg h1]
      by_cases h2 : st.lt = "access"
      · rw [if_pos h2]
        cases hp : AccessParser.parse (pyStrip l0) with
        | none => exact h
        | some p =>
          dsimp only
          split
          · exact flushBatch_raw (hext st.lt p)
          · exact hext st.lt p
      · rw [if_neg h2]
        by_cases h3 : st.lt = "auth"
        · rw [if_pos h3]
          cases hp : AuthParser.parse year (pyStrip l0) with
          | none => exact h
          | some p =>
            dsimp only
            split
            · exact flushBatch_raw (hext st.lt p)
            · exact hext st.lt p
        · rw [if_neg h3]
          cases hs : SyslogParser.parse year (pyStrip l0) with
          | some p =>
            dsimp only
            split
            · exact flushBatch_raw (hext "syslog" p)
            · exact hext "syslog" p
          | none =>
            cases ha : AccessParser.parse (pyStrip l0) with
            | some p =>
              dsimp only
              split
              · exact flushBatch_raw (hext "access" p)
              · exact hext "access" p
            | none =>
              cases hu : AuthParser.parse year (pyStrip l0) with
              | some p =>
                dsimp only
                split
                · exact flushBatch_raw (hext "auth" p)
                · exact hext "auth" p
              | none => exact h

theorem ingestLoop_raw (year : Nat) {Q : String → Prop} (ls : List String) :
    ∀ st : LogIngester.IngestState, IngestRawInv Q st →
      (∀ l ∈ ls, pyStrip l ≠ "" → Q (pyStrip l)) →
      IngestRawInv Q (LogIngester.ingestLoop year ls st) := by
  induction ls with
  | nil => exact fun _ h _ => h
  | cons l ls ih =>
    intro st h hq
    exact ih _ (ingestStep_raw year st l h (hq l (List.mem_cons_self l ls)))
      (fun l' hl' => hq l' (List.mem_cons_of_mem l hl'))

/-- Claim C9, amended: every record `ingest_file` hands to the store has a
non-empty `raw` field equal to one of the input lines with leading and
trailing whitespace stripped: `raw` is the stripped line verbatim, passed
unchanged through `add_log` — but it is not the unstripped original. -/
theorem C9_raw_is_stripped_line (year : Nat) (fp : String) (lines : List String)
    (lt : Option String) :
    ∀ row ∈ (LogIngester.ingest_file year fp lines lt).2,
      ∃ s, dictGet row "raw" = .vStr s ∧ s ≠ "" ∧ ∃ l ∈ lines, s = pyStrip l := by
  have hinit : ∀ lt0 : String,
      IngestRawInv (fun s => s ≠ "" ∧ ∃ l ∈ lines, s = pyStrip l) ⟨lt0, 0, 0, [], []⟩ :=
    fun lt0 => ⟨by simp, by simp⟩
  intro row hrow
  obtain ⟨s, hs, hQ⟩ := (flushBatch_raw (ingestLoop_raw year lines _ (hinit _)
    (fun l hl hne => ⟨hne, l, hl, rfl⟩))).2 row hrow
  exact ⟨s, hs, hQ.1, hQ.2⟩


/-- Claim C3, counterexample: a file mixing an access line with a classic
syslog line, ingested with auto-detection, locks onto `access` from the
first line; the syslog line — which `SyslogParser` parses fine — is then run
only through the access parser, fails, and is counted as an error instead of
being classified by its own format. -/
theorem C3_counterexample :
    (SyslogParser.parse 2025 "Jan 12 11:33:22 host app: msg").isSome = true
    ∧ LogIngester.ingest_file 2025 "app.txt"
        ["1.2.3.4 - - [13/Feb/2025:11:22:33 +0000] \"GET / HTTP/1.1\" 200 7",
         "Jan 12 11:33:22 host app: msg"] none =
      ("Ingested 1 events from app.txt (access format) (1 errors)",
       [[("log_type", .vStr "access"), ("timestamp", .vStr "2025-02-13T11:22:33+00:00"),
         ("host", .vNone), ("service", .vNone), ("message", .vNone),
         ("ip", .vStr "1.2.3.4"), ("method", .vStr "GET"), ("endpoint", .vStr "/"),
         ("status", .vStr "200"), ("size", .vInt 7), ("user", .vNone), ("action", .vNone),
         ("raw", .vStr "1.2.3.4 - - [13/Feb/2025:11:22:33 +0000] \"GET / HTTP/1.1\" 200 7")]]) :=
  ⟨by decide, by decide⟩

theorem C3_witness :
    ∃ t : String, dictGet
      [("log_type", .vStr "access"), ("timestamp", .vStr "2025-02-13T11:22:33+00:00"),
       ("host", .vNone), ("service", .vNone), ("message", .vNone),
       ("ip", .vStr "1.2.3.4"), ("method", .vStr "GET"), ("endpoint", .vStr "/"),
       ("status", .vStr "200"), ("size", .vInt 7), ("user", .vNone), ("action", .vNone),
       ("raw", .vStr "1.2.3.4 - - [13/Feb/2025:11:22:33 +0000] \"GET / HTTP/1.1\" 200 7")]
      "log_type" = SVal.vStr t := by
  obtain ⟨t, h⟩ := C3_single_log_type_per_file 2025 "app.txt"
    ["1.2.3.4 - - [13/Feb/2025:11:22:33 +0000] \"GET / HTTP/1.1\" 200 7",
     "Jan 12 11:33:22 host app: msg"] none
  exact ⟨t, h _ (by decide)⟩

/-- Claim C9, counterexample: ingesting a line carrying leading and trailing
whitespace stores `raw` as the stripped line, not the verbatim original
input line. -/
theorem C9_counterexample :
    (LogIngester.ingest_file 2025 "syslog.log"
        ["  Jan 12 11:33:22 host app: msg  "] none).2.map (fun r => dictGet r "raw") =
      [.vStr "Jan 12 11:33:22 host app: msg"]
    ∧ ("Jan 12 11:33:22 host app: msg" : String) ≠ "  Jan 12 11:33:22 host app: msg  " :=
  ⟨by decide, by decide⟩

theorem C9_witness :
    ∃ s, dictGet
      [("log_type", .vStr "syslog"), ("timestamp", .vStr "2025-01-12T11:33:22"),
       ("host", .vStr "host"), ("service", .vStr "app"), ("message", .vStr "msg"),
       ("ip", .vNone), ("method", .vNone), ("endpoint", .vNone), ("status", .vNone),
       ("size", .vInt 0), ("user", .vNone), ("action", .vNone),
       ("raw", .vStr "Jan 12 11:33:22 host app: msg")] "raw" = SVal.vStr s
      ∧ s ≠ "" ∧ ∃ l ∈ ["  Jan 12 11:33:22 host app: msg  "], s = pyStrip l :=
  C9_raw_is_stripped_line 2025 "syslog.log" ["  Jan 12 11:33:22 host app: msg  "] none
    _ (by decide)

/-- Claim C5: for any record set and field, the rows of `count_by(field)`
have counts summing to the number of records, carry pairwise-distinct values
(each record's sentinel-mapped field value appears in exactly one row), and
are sorted by descending count. -/
theorem C5_count_by_partition (results : List RowD) (field : String) :
    ((QueryEngine._count_by results field).map countField).sum = (results.length : Int)
    ∧ ((QueryEngine._count_by results field).map valueField).Nodup
    ∧ (∀ r ∈ results,
        keyOfR r field ∈ (QueryEngine._count_by results field).map valueField)
    ∧ List.Sorted (fun a b => countField b ≤ countField a)
        (QueryEngine._count_by results field) := by
  have hperm : List.Perm (sortLe countDescLe (countsOf results field))
      (countsOf results field) := sortLe_perm _ _
  have hvals : (QueryEngine._count_by results field).map valueField =
      (sortLe countDescLe (countsOf results field)).map Prod.fst := by
    simp only [QueryEngine._count_by, List.map_map]
    rfl
  have hcnts : (QueryEngine._count_by results field).map countField =
      ((sortLe countDescLe (countsOf results field)).map Prod.snd).map
        (fun n : Nat => (n : Int)) := by
    simp only [QueryEngine._count_by, List.map_map]
    rfl
  refine ⟨?_, ?_, ?_, ?_⟩
  · rw [hcnts]
    rw [← Nat.cast_list_sum]
    rw [(hperm.map Prod.snd).sum_eq, countsOf_sum]
  · rw [hvals]
    exact ((hperm.map Prod.fst).nodup_iff).mpr (countsOf_nodup results field)
  · intro r hr
    rw [hvals]
    exact ((hperm.map Prod.fst).mem_iff).mpr (countsOf_mem results field r hr)
  · have hsorted := sortLe_sorted countDescLe countDescLe_total countDescLe_trans
      (countsOf results field)
    exact hsorted.map _ (fun a b hab => by
      show ((b.2 : Nat) : Int) ≤ ((a.2 : Nat) : Int)
      exact_mod_cast of_decide_eq_true hab)

theorem C5_witness :
    keyOfR [("ip", SVal.vStr "1.1.1.1")] "ip" ∈
      (QueryEngine._count_by [[("ip", .vStr "1.1.1.1")], [("ip", .vNone)]] "ip").map
        valueField :=
  (C5_count_by_partition [[("ip", .vStr "1.1.1.1")], [("ip", .vNone)]] "ip").2.2.1
    _ (by decide)

theorem bucketAscLe_key_le {a b : String × Nat} (h : bucketAscLe a b = true) :
    strLeB a.1 b.1 = true := by
  simp only [bucketAscLe, Bool.or_eq_true, Bool.and_eq_true, decide_eq_true_eq] at h
  rcases h with h | h
  · simp only [strLeB]
    rw [strLtB_asymm h]
    rfl
  · simp only [strLeB, h.1]
    rw [strLtB_irrefl]
    rfl

/-- Claim C6: `time_bucket(1h)` maps `2025-01-01T10:05:00` and
`2025-01-01T10:55:00` to the same bucket with boundary 10:00:00 (key
`"2025-01-01 10:00:00"`, rendered by `strftime` with a space separator) and
`2025-01-01T11:00:01` to the distinct 11:00:00 bucket; rows are always
sorted ascending by bucket key; and a record with a missing or unparseable
timestamp is simply skipped wherever it occurs — it contributes no row and
no error row. -/
theorem C6_time_bucket :
    (QueryEngine._time_bucket
        [[("timestamp", .vStr "2025-01-01T10:05:00")],
         [("timestamp", .vStr "2025-01-01T10:55:00")],
         [("timestamp", .vStr "2025-01-01T11:00:01")],
         [("timestamp", .vNone)],
         [("timestamp", .vStr "garbage")]] "1h" =
      [[("time", .vStr "2025-01-01 10:00:00"), ("count", .vInt 2)],
       [("time", .vStr "2025-01-01 11:00:00"), ("count", .vInt 1)]])
    ∧ QueryEngine.bucketKey? "1h" [("timestamp", .vStr "2025-01-01T10:05:00")] =
        some "2025-01-01 10:00:00"
    ∧ QueryEngine.bucketKey? "1h" [("timestamp", .vStr "2025-01-01T10:55:00")] =
        some "2025-01-01 10:00:00"
    ∧ QueryEngine.bucketKey? "1h" [("timestamp", .vStr "2025-01-01T11:00:01")] =
        some "2025-01-01 11:00:00"
    ∧ ("2025-01-01 10:00:00" : String) ≠ "2025-01-01 11:00:00"
    ∧ (∀ (results : List RowD) (interval : String),
        List.Sorted (fun a b => svalLeB (timeField a) (timeField b) = true)
          (QueryEngine._time_bucket results interval))
    ∧ (∀ (interval : String) (pre post : List RowD),
        QueryEngine._time_bucket (pre ++ [("timestamp", SVal.vNone)] :: post) interval =
          QueryEngine._time_bucket (pre ++ post) interval)
    ∧ (∀ (interval : String) (pre post : List RowD),
        QueryEngine._time_bucket (pre ++ [("timestamp", SVal.vStr "garbage")] :: post)
            interval =
          QueryEngine._time_bucket (pre ++ post) interval) := by
  refine ⟨by decide, by decide, by decide, by decide, by decide, ?_, ?_, ?_⟩
  · intro results interval
    have hsorted := sortLe_sorted bucketAscLe bucketAscLe_total bucketAscLe_trans
      (QueryEngine.bucketsOf results interval)
    exact hsorted.map _ (fun a b hab => bucketAscLe_key_le hab)
  · intro interval pre post
    have hb : QueryEngine.bucketsOf (pre ++ [("timestamp", SVal.vNone)] :: post) interval =
        QueryEngine.bucketsOf (pre ++ post) interval := by
      simp only [QueryEngine.bucketsOf, List.foldl_append, List.foldl_cons]
      rfl
    simp only [QueryEngine._time_bucket, hb]
  · intro interval pre post
    have hb : QueryEngine.bucketsOf
        (pre ++ [("timestamp", SVal.vStr "garbage")] :: post) interval =
        QueryEngine.bucketsOf (pre ++ post) interval := by
      simp only [QueryEngine.bucketsOf, List.foldl_append, List.foldl_cons]
      rfl
    simp only [QueryEngine._time_bucket, hb]


set_option maxRecDepth 8192 in
/-- Claim C8: the quoted phrase `"Failed password"` compiles to exactly one
free-text clause whose rendered SQL is the OR of case-insensitive `LIKE`
tests over raw, message, service, user, action, endpoint and host, each
guarded by `IS NOT NULL`; any record whose raw field contains the phrase
case-insensitively satisfies the compiled predicate regardless of its other
fields; and every bare keyword token compiles to the same free-text clause
shape. -/
theorem C8_free_text_predicate :
    (∀ now : PyDateTime, QueryParser._parse_search now "\"Failed password\"" =
      "((raw IS NOT NULL AND LOWER(raw) LIKE '%failed password%') OR (message IS NOT NULL AND LOWER(message) LIKE '%failed password%') OR (service IS NOT NULL AND LOWER(service) LIKE '%failed password%') OR (user IS NOT NULL AND LOWER(user) LIKE '%failed password%') OR (action IS NOT NULL AND LOWER(action) LIKE '%failed password%') OR (endpoint IS NOT NULL AND LOWER(endpoint) LIKE '%failed password%') OR (host IS NOT NULL AND LOWER(host) LIKE '%failed password%'))")
    ∧ (∀ now : PyDateTime, QueryParser.searchClauses now "\"Failed password\"" =
        [.freeText "failed password"])
    ∧ (∀ (now : PyDateTime) (r : RowD) (s : String),
        dictGet r "raw" = .vStr s → pyIn "failed password" (lowerStr s) = true →
        evalWhere (QueryParser.searchClauses now "\"Failed password\"") r = true)
    ∧ (∀ (now : PyDateTime) (kw : String),
        pyIn "=" kw = false → pyStartsWith kw "\"" = false →
        pyStartsWith kw "last=" = false → pyStartsWith kw "earliest=" = false →
        pyStartsWith kw "latest=" = false → kw ≠ "*" →
        QueryParser.tokenClauses now kw = [.freeText (lowerStr kw)]) := by
  refine ⟨fun now => by rfl, fun now => by rfl, ?_, ?_⟩
  · intro now r s hraw hct
    have hcl : QueryParser.searchClauses now "\"Failed password\"" =
        [.freeText "failed password"] := rfl
    rw [hcl]
    simp only [evalWhere, List.all_cons, List.all_nil, Bool.and_true]
    simp only [evalCond, freeTextFields, List.any_cons, List.any_nil]
    rw [hraw]
    simp [hct]
  · intro now kw h1 h2 h3 h4 h5 h6
    simp only [QueryParser.tokenClauses, h1, h2, h3, h4, h5, Bool.false_and,
      Bool.false_eq_true, if_false]
    rw [if_neg h6]
    simp

theorem C8_witness :
    evalWhere (QueryParser.searchClauses demoNow "\"Failed password\"")
      [("raw", .vStr "Jan 12 sshd: FAILED PASSWORD for root")] = true
    ∧ QueryParser.tokenClauses demoNow "error" = [.freeText "error"] :=
  ⟨C8_free_text_predicate.2.2.1 demoNow _ "Jan 12 sshd: FAILED PASSWORD for root"
      (by decide) (by decide),
   C8_free_text_predicate.2.2.2 demoNow "error" (by decide) (by decide) (by decide)
      (by decide) (by decide) (by decide)⟩

/-- Claim C10: `count_by` and `top` group a record under the sentinel key
`"null"` whenever its field value is falsy — `None`, the empty string, or
the integer 0 — so a record with `size = 0` and a record with no size at all
land in the same `"null"` row and are indistinguishable in the output. -/
theorem C10_falsy_grouped_as_null :
    (∀ (r : RowD) (field : String), (dictGet r field).falsy = true →
      keyOfR r field = .vStr "null")
    ∧ SVal.falsy (.vInt 0) = true ∧ SVal.falsy (.vStr "") = true ∧ SVal.falsy .vNone = true
    ∧ SVal.falsy (.vInt 7) = false ∧ SVal.falsy (.vStr "x") = false
    ∧ QueryEngine._count_by [[("size", .vInt 0)], [("ip", .vStr "1.2.3.4")]] "size" =
        [[("value", .vStr "null"), ("count", .vInt 2)]]
    ∧ QueryEngine._top [[("size", .vInt 0)], [("ip", .vStr "1.2.3.4")]] 5 "size" =
        [[("value", .vStr "null"), ("count", .vInt 2)]] := by
  refine ⟨?_, by decide, by decide, by decide, by decide, by decide, by decide, by decide⟩
  intro r field h
  simp [keyOfR, h]

theorem C10_witness :
    keyOfR [("size", SVal.vInt 0)] "size" = .vStr "null" :=
  C10_falsy_grouped_as_null.1 _ "size" (by decide)


end CoreSight
